import Mathlib

/-!
# ip_detector: registration, login and bearer-token middleware

A shallow embedding of the Go service `ip_detector`:

* `internal/domain/model/user.go`, `internal/domain/port/*.go`: the data model and the
  two collaborator interfaces (`UserRepository`, `GeoIPService`);
* `internal/app/service/user_service.go`: `CreateUser`, `GetAllUsers`, `GetUserByID`,
  `GetUserByEmail`, `GenerateJWT`;
* `internal/auth/token.go`: `GenerateToken`, `ParseToken`;
* `internal/adapter/http/middleware/jwt.go`: `JWTMiddleware`;
* `internal/adapter/http/handler/user_handler.go`: `RegisterUser`, `Login`, `GetUsers`,
  `GetUserByID`.

Conventions of the embedding.

* A Go `error` is the text of the error (`Except String α`, or `Option String` for a
  function that returns only an error).
* A `*model.User` argument that the callee can mutate is passed in and handed back.
* The collaborators are interfaces in the source, so they are parameters here; a
  repository works on an explicit store of type `σ`.
* Every call the code makes to a collaborator is recorded, in order, in a list of
  `Call`s, so that "is called exactly once" and "is never called" are statements about
  that list.
* Code that lives outside the repository (the JWT library's wire format, `crypto/sha256`,
  `time.ParseDuration`, `bcrypt`, the struct validator's regular expressions, `net.ParseIP`,
  `net/mail`, `encoding/json` on request bodies) is collected in the structure `Lib`
  and every definition is parameterised by it.
* Logging is not modelled: it writes to the server's log and to nothing a caller sees.
* A Go string is a Lean `String`, a sequence of Unicode characters; `[]byte(s)` is its
  UTF-8 encoding as a list of numbers below 256.  Go strings that are not valid UTF-8
  are outside the model.
* Time is an integer number of nanoseconds since the Unix epoch; a duration is an
  integer number of nanoseconds.
-/

namespace IpDetector

set_option maxRecDepth 100000

deriving instance DecidableEq for Except

/-! ## Data model (`internal/domain/model/user.go`) -/

/-- The record `model.User`. -/
structure User where
  ID : String
  Name : String
  Email : String
  IP : String
  Country : String
  PasswordHash : String
deriving DecidableEq, Repr

/-! ## Ports (`internal/domain/port`) -/

/-- The interface `port.GeoIPService`. -/
structure GeoIPService where
  GetCountryByIP : String → Except String String

/-- The interface `port.UserRepository` over a store of type `σ`.  `Save` receives a
pointer to the user, so it returns the user as it is after the call (a store assigns
the id) together with the new store; the first component is the returned error. -/
structure UserRepository (σ : Type) where
  Save : σ → User → Option String × User × σ
  GetAll : σ → Except String (List User)
  GetByID : σ → String → Except String (Option User)
  GetByEmail : σ → String → Except String (Option User)

/-- The calls made to the collaborators, as recorded in order of execution. -/
inductive Call where
  | GetCountryByIP (ip : String)
  | Save (user : User)
deriving DecidableEq, Repr

/-! ## User service (`internal/app/service/user_service.go`) -/

/-- The struct `service.Config`. -/
structure Config where
  JWTSecret : String
  JWTExpiration : String
deriving DecidableEq, Repr

/-- What a run of `CreateUser` leaves behind: the returned error (`none` is `nil`), the
user behind the pointer, the store, and the collaborator calls made. -/
structure CreateRun (σ : Type) where
  err : Option String
  user : User
  store : σ
  calls : List Call

/-- The method `UserService.CreateUser`. -/
def CreateUser {σ : Type} (repo : UserRepository σ) (geoIP : GeoIPService)
    (st : σ) (user : User) : CreateRun σ :=
  if user.IP = "" then
    { err := some "user IP is required", user := user, store := st, calls := [] }
  else
    match geoIP.GetCountryByIP user.IP with
    | .error e =>
      { err := some ("failed to enrich user with country: " ++ e), user := user,
        store := st, calls := [Call.GetCountryByIP user.IP] }
    | .ok country =>
      let user1 : User := { user with Country := country }
      match repo.Save st user1 with
      | (some e, user2, st2) =>
        { err := some ("failed to save user: " ++ e), user := user2, store := st2,
          calls := [Call.GetCountryByIP user.IP, Call.Save user1] }
      | (none, user2, st2) =>
        { err := none, user := user2, store := st2,
          calls := [Call.GetCountryByIP user.IP, Call.Save user1] }

/-- The method `UserService.GetUserByEmail`: a pass-through read. -/
def GetUserByEmail {σ : Type} (repo : UserRepository σ) (st : σ) (email : String) :
    Except String (Option User) :=
  match repo.GetByEmail st email with
  | .error e => .error e
  | .ok u => .ok u

/-- The method `UserService.GetAllUsers`: a pass-through read. -/
def GetAllUsers {σ : Type} (repo : UserRepository σ) (st : σ) : Except String (List User) :=
  match repo.GetAll st with
  | .error e => .error e
  | .ok users => .ok users

/-- The method `UserService.GetUserByID`: a pass-through read. -/
def UserService.GetUserByID {σ : Type} (repo : UserRepository σ) (st : σ) (id : String) :
    Except String (Option User) :=
  match repo.GetByID st id with
  | .error e => .error e
  | .ok u => .ok u

/-! ## Reference collaborators

The in-memory doubles of `router_test.go`: `mockRepo` keeps the users in a map keyed by
email (an association list here) and its `Save` always succeeds; `geoIPMock` answers
"UA" for every address.  `failingGeoIP` is a lookup that always fails. -/

/-- The test double `mockRepo`. -/
def mockRepo : UserRepository (List (String × User)) where
  Save := fun st u => (none, u, (u.Email, u) :: st.filter (fun p => p.1 != u.Email))
  GetAll := fun st => .ok (st.map Prod.snd)
  GetByID := fun st id => .ok ((st.find? (fun p => p.2.ID == id)).map Prod.snd)
  GetByEmail := fun st email => .ok ((st.find? (fun p => p.1 == email)).map Prod.snd)

/-- The test double `geoIPMock`. -/
def geoIPMock : GeoIPService where
  GetCountryByIP := fun _ => .ok "UA"

/-- A lookup that fails for every address. -/
def failingGeoIP : GeoIPService where
  GetCountryByIP := fun _ => .error "IP API returned non-200 status: 500"

/-- The user of the test `TestRegisterOK`, as the handler hands it to `CreateUser`. -/
def alice : User :=
  { ID := "", Name := "Alice", Email := "alice@example.com", IP := "8.8.8.8",
    Country := "", PasswordHash := "$2a$10$hash" }

/-! ## Code outside the repository

The service calls into Go's standard library and four third-party packages.  What the
embedding needs of them is collected here.  The parts with a fixed, documented
algorithm are written out (the HMAC construction, the JWT parser's order of checks,
the validator's tags); the rest are fields of `Lib`. -/

/-- The type `jwt.RegisteredClaims`, restricted to the fields the service writes and
the parser's default validator reads.  A `jwt.NumericDate` holds whole seconds since the
epoch (`jwt.TimePrecision` is one second); `none` is a nil pointer. -/
structure RegisteredClaims where
  Subject : String
  ExpiresAt : Option Int
  NotBefore : Option Int
  IssuedAt : Option Int
deriving DecidableEq, Repr

/-- What `jwt.Parser.ParseUnverified` extracts from a token string of three
dot-separated segments: the header's "alg" entry when it is a string, the decoded
claims, the text that was signed (first two segments joined by a dot) and the third
segment as it stands. -/
structure Segments where
  alg : Option String
  claims : RegisteredClaims
  signingString : String
  signature : String
deriving DecidableEq, Repr

/-- The anonymous struct `input` of the handler `RegisterUser`. -/
structure RegisterInput where
  Name : String
  Email : String
  IP : String
  Password : String
deriving DecidableEq, Repr

/-- The anonymous struct `credentials` of the handler `Login`. -/
structure Credentials where
  Email : String
  Password : String
deriving DecidableEq, Repr

/-- The library functions the service depends on.

* `ParseDuration`: `time.ParseDuration`, in nanoseconds.
* `sha256`: `crypto/sha256` on byte strings.
* `SigningString alg claims`: `jwt.Token.SigningString` for a token whose header names
  `alg`: the base64url JSON header, a dot, the base64url JSON claims.
* `EncodeSegment`, `DecodeSegment`: base64url without padding.
* `ParseSegments`: the splitting and decoding done by `jwt.Parser.ParseUnverified`.
* `GenerateFromPassword`, `CompareHashAndPassword`: `bcrypt`; the comparison is `true`
  when Go returns a nil error.
* `isEmail`: the regular expression behind the validator tag `email`.
* `ParseIP`: whether `net.ParseIP` returns a non-nil address.
* `ParseAddress`: whether `mail.ParseAddress` returns a nil error.
* `decodeRegister`, `decodeLogin`: `json.Decoder.Decode` into the two request structs.
* `validationError`: the text of `validator.ValidationErrors` for the failed
  (field, tag) pairs. -/
structure Lib where
  ParseDuration : String → Except String Int
  sha256 : List Nat → List Nat
  SigningString : String → RegisteredClaims → Except String String
  EncodeSegment : List Nat → String
  DecodeSegment : String → Except String (List Nat)
  ParseSegments : String → Except String Segments
  GenerateFromPassword : String → Except String String
  CompareHashAndPassword : String → String → Bool
  isEmail : String → Bool
  ParseIP : String → Bool
  ParseAddress : String → Bool
  decodeRegister : String → Except String RegisterInput
  decodeLogin : String → Except String Credentials
  validationError : List (String × String) → String

/-- The conversion `[]byte(s)`: the UTF-8 bytes of a string. -/
def bytes (s : String) : List Nat :=
  s.data.flatMap (fun c => (String.utf8EncodeChar c).map UInt8.toNat)

/-- The key block of `crypto/hmac.New` for a hash with 64-byte blocks: a key longer than
a block is hashed first, then the key is copied into a zeroed block. -/
def hmacKeyBlock (L : Lib) (key : List Nat) : List Nat :=
  let k := if key.length > 64 then L.sha256 key else key
  (k ++ List.replicate (64 - k.length) 0).take 64

/-- HMAC-SHA256 as `crypto/hmac` computes it: the outer hash of the key block xor 0x5c
followed by the inner hash of the key block xor 0x36 followed by the message. -/
def hmacSHA256 (L : Lib) (key msg : List Nat) : List Nat :=
  let block := hmacKeyBlock L key
  L.sha256 (block.map (fun b => b ^^^ 0x5c) ++
    L.sha256 (block.map (fun b => b ^^^ 0x36) ++ msg))

/-- The input of the outer hash of HMAC: the key block xor 0x5c followed by the inner
hash, so that `hmacSHA256 L key msg` is `L.sha256 (hmacOuter L key msg)`. -/
def hmacOuter (L : Lib) (key msg : List Nat) : List Nat :=
  let block := hmacKeyBlock L key
  block.map (fun b => b ^^^ 0x5c) ++ L.sha256 (block.map (fun b => b ^^^ 0x36) ++ msg)

/-- The constructor `jwt.NewNumericDate`: the time truncated to `jwt.TimePrecision`, one
second.  (Integer division rounds down for a positive divisor.) -/
def NewNumericDate (t : Int) : Int := t / 1000000000

/-- The instant a `jwt.NumericDate` stands for, in nanoseconds. -/
def NumericDate.Time (secs : Int) : Int := secs * 1000000000

/-- The names `jwt.GetSigningMethod` knows: the methods the package registers. -/
def registeredMethods : List String :=
  ["HS256", "HS384", "HS512", "RS256", "RS384", "RS512", "PS256", "PS384", "PS512",
   "ES256", "ES384", "ES512", "EdDSA", "none"]

/-- The default `jwt.Validator.Validate` on registered claims (no leeway, no expected
issuer, audience or subject, no issued-at check): the list of failed checks.  A present
"exp" needs `now.Before(exp)`; a present "nbf" needs `!now.Before(nbf)`. -/
def validateClaims (now : Int) (c : RegisteredClaims) : List String :=
  (match c.ExpiresAt with
   | some exp => if now < NumericDate.Time exp then [] else ["token is expired"]
   | none => []) ++
  (match c.NotBefore with
   | some nbf => if now < NumericDate.Time nbf then ["token is not valid yet"] else []
   | none => [])

/-- The call `jwt.ParseWithClaims(token, &jwt.RegisteredClaims{}, keyFunc,
jwt.WithValidMethods([]string{"HS256"}))` with a key function that returns the byte
string `key`, at current time `now`.  In the library's order: split and decode; look up
the signing method; require the method to be in the valid set; decode the signature;
verify it (for HS256, `hmac.Equal` against the HMAC of the signing string); validate
the claims. -/
def ParseWithClaims (L : Lib) (now : Int) (tokenString : String) (key : List Nat) :
    Except String RegisteredClaims :=
  match L.ParseSegments tokenString with
  | .error e => .error e
  | .ok seg =>
    match seg.alg with
    | none => .error "token is unverifiable: signing method (alg) is unspecified"
    | some alg =>
      if alg ∉ registeredMethods then
        .error "token is unverifiable: signing method (alg) is unavailable"
      else if alg ∉ ["HS256"] then
        .error ("token signature is invalid: signing method " ++ alg ++ " is invalid")
      else
        match L.DecodeSegment seg.signature with
        | .error e => .error ("token is malformed: could not base64 decode signature: " ++ e)
        | .ok sig =>
          if sig = hmacSHA256 L key (bytes seg.signingString) then
            match validateClaims now seg.claims with
            | [] => .ok seg.claims
            | errs => .error ("token has invalid claims: " ++ ", ".intercalate errs)
          else
            .error "token signature is invalid: signature is invalid"

/-- The method `jwt.Token.SignedString` for an HS256 token: the signing string, a dot,
and the encoded HMAC of the signing string. -/
def SignedString (L : Lib) (claims : RegisteredClaims) (key : List Nat) :
    Except String String :=
  match L.SigningString "HS256" claims with
  | .error e => .error e
  | .ok sstr => .ok (sstr ++ "." ++ L.EncodeSegment (hmacSHA256 L key (bytes sstr)))

/-! ## Tokens (`internal/auth/token.go`) -/

/-- The function `auth.GenerateToken`.  It reads the clock twice: `now₁` is the reading
used for "iat", `now₂` the one used for "exp". -/
def GenerateToken (L : Lib) (now₁ now₂ : Int) (email secret ttl : String) :
    Except String String :=
  match L.ParseDuration ttl with
  | .error e => .error e
  | .ok d =>
    let claims : RegisteredClaims :=
      { Subject := email,
        IssuedAt := some (NewNumericDate now₁),
        ExpiresAt := some (NewNumericDate (now₂ + d)),
        NotBefore := none }
    SignedString L claims (bytes secret)

/-- The function `auth.ParseToken` at current time `now`.  After a nil error from the
library the claims are the `*jwt.RegisteredClaims` that was passed in and `parsed.Valid`
is set, so the "invalid token" branch is not taken. -/
def ParseToken (L : Lib) (now : Int) (token secret : String) : Except String String :=
  match ParseWithClaims L now token (bytes secret) with
  | .error e => .error e
  | .ok claims => .ok claims.Subject

/-- The method `UserService.GenerateJWT`. -/
def GenerateJWT (L : Lib) (cfg : Config) (now₁ now₂ : Int) (email : String) :
    Except String String :=
  match GenerateToken L now₁ now₂ email cfg.JWTSecret cfg.JWTExpiration with
  | .error e => .error ("failed to generate JWT: " ++ e)
  | .ok token => .ok token

/-- The library reads a token back as it was written: the token made of the signing
string `sstr`, a dot and the encoded signature `sig` splits into an HS256 header, the
claims `claims`, `sstr` and the encoded signature, and the encoded signature decodes
to `sig`.  This is what base64url and JSON give for a token the library itself wrote. -/
def Lib.ReadsBack (L : Lib) (sstr : String) (claims : RegisteredClaims) (sig : List Nat) :
    Prop :=
  L.ParseSegments (sstr ++ "." ++ L.EncodeSegment sig) =
      .ok { alg := some "HS256", claims := claims, signingString := sstr,
            signature := L.EncodeSegment sig } ∧
  L.DecodeSegment (L.EncodeSegment sig) = .ok sig

/-! ## HTTP vocabulary (`net/http`, `strings`) -/

/-- A header map: canonical field names with their first value. -/
abbrev Header := List (String × String)

/-- The method `http.Header.Get`: the first value of the field, "" when it is absent. -/
def Header.Get (h : Header) (key : String) : String :=
  match h.find? (fun p => p.1 == key) with
  | some p => p.2
  | none => ""

/-- A request: its header, its body, and the values its context carries (most recent
first), keyed by the text of the context key. -/
structure Request where
  Header : Header
  Body : String
  Context : List (String × String)
deriving DecidableEq, Repr

/-- The call `r.WithContext(context.WithValue(r.Context(), key, val))`. -/
def Request.WithValue (r : Request) (key val : String) : Request :=
  { r with Context := (key, val) :: r.Context }

/-- The call `r.Context().Value(key)`. -/
def Request.Value (r : Request) (key : String) : Option String :=
  (r.Context.find? (fun p => p.1 == key)).map Prod.snd

/-- A response body: plain text, a JSON object with string members (in order), or a JSON
array of such objects.  The empty array also stands for the `null` that `encoding/json`
writes for a nil slice. -/
inductive Body where
  | text (s : String)
  | object (members : List (String × String))
  | array (items : List (List (String × String)))
deriving DecidableEq, Repr

/-- What a handler writes to the `http.ResponseWriter`: the status, the header fields the
handler set, and the body. -/
structure Response where
  status : Nat
  header : Header
  body : Body
deriving DecidableEq, Repr

/-- The function `http.Error` on a fresh response writer: two header fields, the status,
and the message followed by a newline. -/
def httpError (error : String) (code : Nat) : Response :=
  { status := code,
    header := [("Content-Type", "text/plain; charset=utf-8"),
               ("X-Content-Type-Options", "nosniff")],
    body := Body.text (error ++ "\n") }

/-- The function `strings.HasPrefix`. -/
def HasPrefix (s pre : String) : Bool := pre.data.isPrefixOf s.data

/-- The function `strings.TrimPrefix`. -/
def TrimPrefix (s pre : String) : String :=
  if HasPrefix s pre then String.mk (s.data.drop pre.data.length) else s

/-- The text of a text body, "" for any other body. -/
def Body.asText : Body → String
  | Body.text s => s
  | Body.object _ => ""
  | Body.array _ => ""

/-- Whether `needle` occurs in `hay` as a contiguous piece. -/
def occursIn (needle hay : String) : Bool :=
  hay.data.tails.any (fun t => needle.data.isPrefixOf t)

/-! ## Bearer-token middleware (`internal/adapter/http/middleware/jwt.go`) -/

/-- The context key `userEmailKey`. -/
def userEmailKey : String := "user_email"

/-- The calls the middleware makes: to the token verifier and to the next handler. -/
inductive MwCall where
  | ParseToken (token secret : String)
  | ServeHTTP (r : Request)
deriving DecidableEq, Repr

/-- A run of the middleware: the calls made, the response the middleware wrote itself
through `http.Error` (if any), and the response the client receives. -/
structure MiddlewareRun where
  calls : List MwCall
  rejection : Option Response
  response : Response

/-- The handler returned by `JWTMiddleware(secret)(next)`, at current time `now`. -/
def JWTMiddleware (L : Lib) (now : Int) (secret : String) (next : Request → Response)
    (r : Request) : MiddlewareRun :=
  let authHeader := r.Header.Get "Authorization"
  if authHeader = "" then
    { calls := [],
      rejection := some (httpError "Authorization header missing" 401),
      response := httpError "Authorization header missing" 401 }
  else if !HasPrefix authHeader "Bearer " then
    { calls := [],
      rejection := some (httpError "Invalid token format" 401),
      response := httpError "Invalid token format" 401 }
  else
    let tokenStr := TrimPrefix authHeader "Bearer "
    match ParseToken L now tokenStr secret with
    | .error e =>
      { calls := [MwCall.ParseToken tokenStr secret],
        rejection := some (httpError ("Invalid token: " ++ e) 401),
        response := httpError ("Invalid token: " ++ e) 401 }
    | .ok email =>
      let r1 := r.WithValue userEmailKey email
      { calls := [MwCall.ParseToken tokenStr secret, MwCall.ServeHTTP r1],
        rejection := none,
        response := next r1 }

/-! ## Handlers (`internal/adapter/http/handler/user_handler.go`) -/

/-- One field of `validate.Struct`: the tags are tried in order and the first one that
fails is reported. -/
def firstFailed (field : String) (checks : List (String × Bool)) : List (String × String) :=
  match checks.find? (fun c => !c.2) with
  | some c => [(field, c.1)]
  | none => []

/-- The call `validate.Struct(input)` in `RegisterUser`, tags `required`,
`required,email`, `required,ip`, `required,min=6`: the failed (field, tag) pairs.  For a
string `required` is "not empty", `ip` is `net.ParseIP(s) != nil` and `min=6` is "at
least 6 runes". -/
def validateRegister (L : Lib) (i : RegisterInput) : List (String × String) :=
  firstFailed "Name" [("required", i.Name != "")] ++
  firstFailed "Email" [("required", i.Email != ""), ("email", L.isEmail i.Email)] ++
  firstFailed "IP" [("required", i.IP != ""), ("ip", L.ParseIP i.IP)] ++
  firstFailed "Password" [("required", i.Password != ""),
                          ("min", decide (6 ≤ i.Password.length))]

/-- The call `validate.Struct(credentials)` in `Login`, tags `required,email` and
`required`. -/
def validateLogin (L : Lib) (c : Credentials) : List (String × String) :=
  firstFailed "Email" [("required", c.Email != ""), ("email", L.isEmail c.Email)] ++
  firstFailed "Password" [("required", c.Password != "")]

/-- The JSON object `encoding/json` writes for a `model.User`, by its struct tags: "id"
and "country" are left out when empty, `PasswordHash` is tagged "-". -/
def User.MarshalJSON (u : User) : List (String × String) :=
  (if u.ID = "" then [] else [("id", u.ID)]) ++
  [("name", u.Name), ("email", u.Email), ("ip", u.IP)] ++
  (if u.Country = "" then [] else [("country", u.Country)])

/-- A run of a handler that can write to the store. -/
structure HandlerRun (σ : Type) where
  response : Response
  store : σ
  calls : List Call

/-- The handler `UserHandler.RegisterUser`. -/
def RegisterUser {σ : Type} (L : Lib) (repo : UserRepository σ) (geoIP : GeoIPService)
    (st : σ) (r : Request) : HandlerRun σ :=
  match L.decodeRegister r.Body with
  | .error _ => { response := httpError "invalid JSON" 400, store := st, calls := [] }
  | .ok input =>
    match validateRegister L input with
    | f :: fs =>
      { response := httpError (L.validationError (f :: fs)) 400, store := st, calls := [] }
    | [] =>
      if !L.ParseIP input.IP then
        { response := httpError "invalid IP address" 400, store := st, calls := [] }
      else if !L.ParseAddress input.Email then
        { response := httpError "invalid email address" 400, store := st, calls := [] }
      else
        match L.GenerateFromPassword input.Password with
        | .error _ =>
          { response := httpError "failed to hash password" 500, store := st, calls := [] }
        | .ok passwordHash =>
          let user : User :=
            { ID := "", Name := input.Name, Email := input.Email, IP := input.IP,
              Country := "", PasswordHash := passwordHash }
          let run := CreateUser repo geoIP st user
          match run.err with
          | some e => { response := httpError e 500, store := run.store, calls := run.calls }
          | none =>
            { response := { status := 201, header := [],
                            body := Body.object run.user.MarshalJSON },
              store := run.store, calls := run.calls }

/-- The handler `UserHandler.Login`; `now₁` and `now₂` are the clock readings of
`GenerateToken`.  It only reads the store. -/
def Login {σ : Type} (L : Lib) (repo : UserRepository σ) (cfg : Config)
    (now₁ now₂ : Int) (st : σ) (r : Request) : Response :=
  match L.decodeLogin r.Body with
  | .error _ => httpError "invalid JSON" 400
  | .ok credentials =>
    match validateLogin L credentials with
    | f :: fs => httpError (L.validationError (f :: fs)) 400
    | [] =>
      match GetUserByEmail repo st credentials.Email with
      | .error _ => httpError "internal error" 500
      | .ok none => httpError "invalid credentials" 401
      | .ok (some user) =>
        if !L.CompareHashAndPassword user.PasswordHash credentials.Password then
          httpError "invalid credentials" 401
        else
          match GenerateJWT L cfg now₁ now₂ user.Email with
          | .error _ => httpError "failed to generate JWT" 500
          | .ok token =>
            { status := 200, header := [("Content-Type", "application/json")],
              body := Body.object [("token", token)] }

/-- The handler `UserHandler.GetUsers`.  It only reads the store. -/
def GetUsers {σ : Type} (repo : UserRepository σ) (st : σ) : Response :=
  match GetAllUsers repo st with
  | .error _ => httpError "failed to fetch users" 500
  | .ok users =>
    { status := 200, header := [("Content-Type", "application/json")],
      body := Body.array (users.map User.MarshalJSON) }

/-- The handler `UserHandler.GetUserByID`; `id` is the route variable `mux.Vars(r)["id"]`.
It only reads the store. -/
def UserHandler.GetUserByID {σ : Type} (repo : UserRepository σ) (st : σ) (id : String) :
    Response :=
  match UserService.GetUserByID repo st id with
  | .error _ => httpError "failed to fetch user" 500
  | .ok none => httpError "user not found" 404
  | .ok (some user) =>
    { status := 200, header := [("Content-Type", "application/json")],
      body := Body.object user.MarshalJSON }

/-- The user with which `RegisterUser` calls `CreateUser`: `none` when the handler
returns before the call (undecodable body, failed validation, `net.ParseIP`,
`mail.ParseAddress` or the hasher). -/
def RegisterUser.toCreate (L : Lib) (r : Request) : Option User :=
  match L.decodeRegister r.Body with
  | .error _ => none
  | .ok input =>
    match validateRegister L input with
    | _ :: _ => none
    | [] =>
      if !L.ParseIP input.IP then none
      else if !L.ParseAddress input.Email then none
      else
        match L.GenerateFromPassword input.Password with
        | .error _ => none
        | .ok passwordHash =>
          some { ID := "", Name := input.Name, Email := input.Email, IP := input.IP,
                 Country := "", PasswordHash := passwordHash }

/-- The JSON member names of a `model.User` by its struct tags. -/
def publicFields : List String := ["id", "name", "email", "ip", "country"]

/-- The members of the JSON value in a body: those of the object, or of every object of
the array; none for a text body. -/
def Body.members : Body → List (String × String)
  | Body.text _ => []
  | Body.object ms => ms
  | Body.array items => items.flatten

/-! ## A small executable library

`toyLib` stands in for the libraries when a definition is evaluated at a concrete input.
Its wire format is readable rather than base64url JSON: a token is
`alg.sub,exp,nbf,iat.sig`, where the subject is written as the decimal code point of
each character followed by `_`, a number in decimal (`m` in front when negative, `x`
when absent) and a signature byte `b < 26` as the letter number `b`.  Its hash is a
four-byte checksum.  Its duration parser, JSON decoder and address checks know the
texts used in the repository's tests and a few more. -/

/-- Split a list of characters at every occurrence of `sep`. -/
def splitAt (sep : Char) : List Char → List (List Char)
  | [] => [[]]
  | c :: cs =>
    if c = sep then [] :: splitAt sep cs
    else
      match splitAt sep cs with
      | [] => [[c]]
      | part :: parts => (c :: part) :: parts

/-- Read a non-empty run of decimal digits. -/
def readNat (cs : List Char) : Option Nat :=
  if cs = [] then none
  else cs.foldl (fun acc c => acc.bind (fun a =>
    if c.isDigit then some (a * 10 + (c.toNat - 48)) else none)) (some 0)

/-- Write an optional integer: `x`, decimal digits, or `m` and decimal digits. -/
def writeDate : Option Int → List Char
  | none => ['x']
  | some (Int.ofNat n) => Nat.toDigits 10 n
  | some (Int.negSucc n) => 'm' :: Nat.toDigits 10 (n + 1)

/-- Read an optional integer written by `writeDate`; the outer `none` is a failure. -/
def readDate : List Char → Option (Option Int)
  | ['x'] => some none
  | 'm' :: cs => (readNat cs).map (fun n => some (-(n : Int)))
  | cs => (readNat cs).map (fun n => some (n : Int))

/-- Write a text: the decimal code point of each character, each followed by `_`. -/
def writeText (cs : List Char) : List Char :=
  cs.flatMap (fun c => Nat.toDigits 10 c.toNat ++ ['_'])

/-- Read a text written by `writeText`. -/
def readText (cs : List Char) : Option (List Char) :=
  match (splitAt '_' cs).reverse with
  | [] :: parts =>
    parts.reverse.foldr (fun part acc =>
      match readNat part, acc with
      | some n, some r => some (Char.ofNat n :: r)
      | _, _ => none) (some [])
  | _ => none

/-- The claims segment of the toy wire format. -/
def writeClaims (c : RegisteredClaims) : List Char :=
  writeText c.Subject.data ++ [','] ++ writeDate c.ExpiresAt ++ [','] ++ writeDate c.NotBefore ++
    [','] ++ writeDate c.IssuedAt

/-- Read a claims segment of the toy wire format. -/
def readClaims (cs : List Char) : Option RegisteredClaims :=
  match splitAt ',' cs with
  | [sub, exp, nbf, iat] =>
    match readText sub, readDate exp, readDate nbf, readDate iat with
    | some s, some e, some n, some i =>
      some { Subject := String.mk s, ExpiresAt := e, NotBefore := n, IssuedAt := i }
    | _, _, _, _ => none
  | _ => none

/-- The toy library. -/
def toyLib : Lib where
  ParseDuration := fun s =>
    if s = "24h" then .ok 86400000000000
    else if s = "1s" then .ok 1000000000
    else if s = "0s" then .ok 0
    else if s = "-1h" then .ok (-3600000000000)
    else .error ("time: invalid duration " ++ s)
  sha256 := fun m =>
    let h := m.foldl (fun a b => (a * 131 + b) % 456976) 7
    [h % 26, h / 26 % 26, h / 676 % 26, h / 17576 % 26]
  SigningString := fun alg c => .ok (alg ++ "." ++ String.mk (writeClaims c))
  EncodeSegment := fun sig => String.mk (sig.map (fun b => Char.ofNat (97 + b % 26)))
  DecodeSegment := fun s =>
    if s.data.all (fun c => decide (97 ≤ c.toNat) && decide (c.toNat < 123)) then
      .ok (s.data.map (fun c => c.toNat - 97))
    else .error "illegal base64 data"
  ParseSegments := fun s =>
    match splitAt '.' s.data with
    | [hdr, cl, sig] =>
      match readClaims cl with
      | some c =>
        .ok { alg := if hdr = [] then none else some (String.mk hdr), claims := c,
              signingString := String.mk (hdr ++ ['.'] ++ cl), signature := String.mk sig }
      | none => .error "token is malformed: could not JSON decode claim"
    | _ => .error "token is malformed: token contains an invalid number of segments"
  GenerateFromPassword := fun p => .ok ("$2a$10$" ++ p)
  CompareHashAndPassword := fun h p => h == "$2a$10$" ++ p
  isEmail := fun s => s.data.contains '@'
  ParseIP := fun s => s == "8.8.8.8" || s == "1.1.1.1"
  ParseAddress := fun s => s.data.contains '@'
  decodeRegister := fun b =>
    if b = "\x7b\"name\":\"Alice\",\"email\":\"alice@example.com\",\"ip\":\"8.8.8.8\",\"password\":\"secret123\"\x7d" then
      .ok { Name := "Alice", Email := "alice@example.com", IP := "8.8.8.8",
            Password := "secret123" }
    else if b = "\x7b\"name\":\"\",\"email\":\"bad\",\"ip\":\"not_ip\",\"password\":\"1\"\x7d" then
      .ok { Name := "", Email := "bad", IP := "not_ip", Password := "1" }
    else .error "invalid character"
  decodeLogin := fun b =>
    if b = "\x7b\"email\":\"bob@example.com\",\"password\":\"hunter2\"\x7d" then
      .ok { Email := "bob@example.com", Password := "hunter2" }
    else .error "invalid character"
  validationError := fun fs =>
    "\n".intercalate (fs.map (fun f => "Field validation for " ++ f.1 ++ " failed on the " ++
      f.2 ++ " tag"))

/-! ## Reference inputs -/

/-- The claims `GenerateToken` writes for clock readings `now₁`, `now₂` and a parsed
ttl `d`. -/
def issuedClaims (email : String) (now₁ now₂ d : Int) : RegisteredClaims :=
  { Subject := email,
    IssuedAt := some (NewNumericDate now₁),
    ExpiresAt := some (NewNumericDate (now₂ + d)),
    NotBefore := none }

/-- A clock reading: half a second past 1700000000 s after the epoch. -/
def t₀ : Int := 1700000000500000000

/-- The configuration of the router test. -/
def testConfig : Config := { JWTSecret := "supersecretkey", JWTExpiration := "24h" }

/-- Bob of `TestLoginAndProtected`, as stored after registration with the toy hasher. -/
def bob : User :=
  { ID := "", Name := "Bob", Email := "bob@example.com", IP := "1.1.1.1",
    Country := "UA", PasswordHash := "$2a$10$hunter2" }

/-- Bob's login request of `TestLoginAndProtected`. -/
def bobLogin : Request :=
  { Header := [("Content-Type", "application/json")],
    Body := "\x7b\"email\":\"bob@example.com\",\"password\":\"hunter2\"\x7d",
    Context := [] }

/-- A request for a protected route with the given `Authorization` value. -/
def withAuthorization (v : String) : Request :=
  { Header := [("Authorization", v)], Body := "", Context := [] }

/-- A request for a protected route without an `Authorization` field. -/
def noAuthorization : Request := { Header := [], Body := "", Context := [] }

/-- A next handler that answers 200 with the email found in the request context. -/
def echoEmail (r : Request) : Response :=
  { status := 200, header := [], body := Body.text ((r.Value userEmailKey).getD "") }

/-- The request of `TestRegisterValidationFail`. -/
def badRegistration : Request :=
  { Header := [("Content-Type", "application/json")],
    Body := "\x7b\"name\":\"\",\"email\":\"bad\",\"ip\":\"not_ip\",\"password\":\"1\"\x7d",
    Context := [] }

/-- The token the toy library issues to Bob at `t₀` under the test configuration. -/
def bobToken : String :=
  "HS256.98_111_98_64_101_120_97_109_112_108_101_46_99_111_109_,1700086400,x,1700000000.vlxv"

/-- The token the toy library issues to Bob at `t₀` with ttl "0s". -/
def bobTokenZeroTtl : String :=
  "HS256.98_111_98_64_101_120_97_109_112_108_101_46_99_111_109_,1700000000,x,1700000000.jepd"

/-- The token the toy library issues to Bob at `t₀` with ttl "24h" under the secret "k". -/
def bobTokenK : String :=
  "HS256.98_111_98_64_101_120_97_109_112_108_101_46_99_111_109_,1700086400,x,1700000000.izad"

/-- A clock reading 25 hours after `t₀`, when Bob's 24-hour token has expired. -/
def t₁ : Int := t₀ + 90000000000000

/-- The request of `TestRegisterOK`. -/
def aliceRegistration : Request :=
  { Header := [("Content-Type", "application/json")],
    Body := "\x7b\"name\":\"Alice\",\"email\":\"alice@example.com\",\"ip\":\"8.8.8.8\",\"password\":\"secret123\"\x7d",
    Context := [] }

/-- A store of the test repository that holds Bob under the id "7". -/
def bobStore : List (String × User) := [("bob@example.com", { bob with ID := "7" })]

/-- The signing string of `bobToken`. -/
def bobSigningString : String :=
  "HS256.98_111_98_64_101_120_97_109_112_108_101_46_99_111_109_,1700086400,x,1700000000"

/-- An unsigned token for Bob whose header names the algorithm "none". -/
def bobTokenNone : String :=
  "none.98_111_98_64_101_120_97_109_112_108_101_46_99_111_109_,1700086400,x,1700000000."

/-! ## Theorems -/

/-- C1: for a user with a non-empty IP, when `GetCountryByIP` returns an error,
`CreateUser` returns an error, `Save` is not among the calls made (the only call is the
lookup), the store is the store it started with, and the user is untouched. -/
theorem C1_lookup_failure_never_saves {σ : Type} (repo : UserRepository σ)
    (geoIP : GeoIPService) (st : σ) (user : User) (e : String)
    (hip : user.IP ≠ "") (hgeo : geoIP.GetCountryByIP user.IP = .error e) :
    (CreateUser repo geoIP st user).err.isSome = true ∧
    (∀ u, Call.Save u ∉ (CreateUser repo geoIP st user).calls) ∧
    (CreateUser repo geoIP st user).calls = [Call.GetCountryByIP user.IP] ∧
    (CreateUser repo geoIP st user).store = st ∧
    (CreateUser repo geoIP st user).user = user := by
  simp [CreateUser, hip, hgeo]

/-- C1 at a concrete input: Alice with a lookup that fails. -/
theorem C1_lookup_failure_never_saves_witness :
    (CreateUser mockRepo failingGeoIP [] alice).err.isSome = true ∧
    (∀ u, Call.Save u ∉ (CreateUser mockRepo failingGeoIP [] alice).calls) ∧
    (CreateUser mockRepo failingGeoIP [] alice).calls = [Call.GetCountryByIP alice.IP] ∧
    (CreateUser mockRepo failingGeoIP [] alice).store = [] ∧
    (CreateUser mockRepo failingGeoIP [] alice).user = alice :=
  C1_lookup_failure_never_saves mockRepo failingGeoIP [] alice
    "IP API returned non-200 status: 500" (by decide) rfl

/-- C2: for a user with a non-empty IP and a lookup that succeeds with country `c`,
`CreateUser` makes exactly two calls, first `GetCountryByIP` with the user's IP and then
`Save` (each once); the user passed to `Save` is the input with `Country := c`, so it has
the input's `ID`, `Name`, `Email`, `IP` and `PasswordHash`; `CreateUser` returns `nil`
exactly when that one `Save` returned `nil`; and what the run leaves behind is what that
one `Save` left behind: the store is the store `Save` returned and the user behind the
pointer is the user as `Save` left it. -/
theorem C2_lookup_success_saves_once {σ : Type} (repo : UserRepository σ)
    (geoIP : GeoIPService) (st : σ) (user : User) (c : String)
    (hip : user.IP ≠ "") (hgeo : geoIP.GetCountryByIP user.IP = .ok c) :
    ∃ saved : User,
      saved = { user with Country := c } ∧
      (CreateUser repo geoIP st user).calls = [Call.GetCountryByIP user.IP, Call.Save saved] ∧
      saved.Country = c ∧ saved.ID = user.ID ∧ saved.Name = user.Name ∧
      saved.Email = user.Email ∧ saved.IP = user.IP ∧
      saved.PasswordHash = user.PasswordHash ∧
      ((CreateUser repo geoIP st user).err = none ↔ (repo.Save st saved).1 = none) ∧
      (∀ e, (repo.Save st saved).1 = some e →
        (CreateUser repo geoIP st user).err = some ("failed to save user: " ++ e)) ∧
      (CreateUser repo geoIP st user).user = (repo.Save st saved).2.1 ∧
      (CreateUser repo geoIP st user).store = (repo.Save st saved).2.2 := by
  refine ⟨{ user with Country := c }, rfl, ?_⟩
  simp only [CreateUser, hip, hgeo, if_false]
  rcases hsave : repo.Save st { user with Country := c } with ⟨err, user2, st2⟩
  cases err <;> simp

/-- C2 at a concrete input: Alice with the doubles of the router test; the store ends up
holding Alice with her country. -/
theorem C2_lookup_success_saves_once_witness :
    (∃ saved : User,
      saved = { alice with Country := "UA" } ∧
      (CreateUser mockRepo geoIPMock [] alice).calls =
        [Call.GetCountryByIP alice.IP, Call.Save saved] ∧
      saved.Country = "UA" ∧ saved.ID = alice.ID ∧ saved.Name = alice.Name ∧
      saved.Email = alice.Email ∧ saved.IP = alice.IP ∧
      saved.PasswordHash = alice.PasswordHash ∧
      ((CreateUser mockRepo geoIPMock [] alice).err = none ↔
        (mockRepo.Save [] saved).1 = none) ∧
      (∀ e, (mockRepo.Save [] saved).1 = some e →
        (CreateUser mockRepo geoIPMock [] alice).err = some ("failed to save user: " ++ e)) ∧
      (CreateUser mockRepo geoIPMock [] alice).user = (mockRepo.Save [] saved).2.1 ∧
      (CreateUser mockRepo geoIPMock [] alice).store = (mockRepo.Save [] saved).2.2) ∧
    (CreateUser mockRepo geoIPMock [] alice).store =
      [("alice@example.com", { alice with Country := "UA" })] ∧
    (CreateUser mockRepo geoIPMock [] alice).err = none :=
  ⟨C2_lookup_success_saves_once mockRepo geoIPMock [] alice "UA" (by decide) rfl,
    by decide, by decide⟩


/-- C3: for a login request that decodes and passes validation, the response when the
repository has no user for the email equals the response when a user exists but the
password does not match the stored hash: status 401, the header fields of `http.Error`
and the body "invalid credentials". -/
theorem C3_login_failures_indistinguishable {σ₁ σ₂ : Type} (L : Lib)
    (repo₁ : UserRepository σ₁) (repo₂ : UserRepository σ₂) (cfg : Config)
    (now₁ now₂ : Int) (st₁ : σ₁) (st₂ : σ₂) (r : Request) (c : Credentials) (user : User)
    (hdec : L.decodeLogin r.Body = .ok c) (hval : validateLogin L c = [])
    (habsent : repo₁.GetByEmail st₁ c.Email = .ok none)
    (hpresent : repo₂.GetByEmail st₂ c.Email = .ok (some user))
    (hwrong : L.CompareHashAndPassword user.PasswordHash c.Password = false) :
    Login L repo₁ cfg now₁ now₂ st₁ r = Login L repo₂ cfg now₁ now₂ st₂ r ∧
    Login L repo₁ cfg now₁ now₂ st₁ r = httpError "invalid credentials" 401 ∧
    (Login L repo₂ cfg now₁ now₂ st₂ r).status = 401 := by
  simp [Login, GetUserByEmail, hdec, hval, habsent, hpresent, hwrong, httpError]

/-- C3 at a concrete input: Bob's login against an empty store and against a store that
holds Bob with the hash of another password. -/
theorem C3_login_failures_indistinguishable_witness :
    Login toyLib mockRepo testConfig t₀ t₀ [] bobLogin =
      Login toyLib mockRepo testConfig t₀ t₀
        [("bob@example.com", { bob with PasswordHash := "$2a$10$other" })] bobLogin ∧
    Login toyLib mockRepo testConfig t₀ t₀ [] bobLogin =
      httpError "invalid credentials" 401 ∧
    (Login toyLib mockRepo testConfig t₀ t₀
        [("bob@example.com", { bob with PasswordHash := "$2a$10$other" })] bobLogin).status
      = 401 :=
  C3_login_failures_indistinguishable toyLib mockRepo mockRepo testConfig t₀ t₀ []
    [("bob@example.com", { bob with PasswordHash := "$2a$10$other" })] bobLogin
    { Email := "bob@example.com", Password := "hunter2" }
    { bob with PasswordHash := "$2a$10$other" }
    (by decide) (by decide) (by decide) (by decide) (by decide)

/-! ### Tokens -/

/-- Truncation to whole seconds never moves a time forward. -/
theorem NumericDate.Time_le (t : Int) : NumericDate.Time (NewNumericDate t) ≤ t := by
  unfold NumericDate.Time NewNumericDate
  omega

/-- Truncation to whole seconds moves a time back by less than a second. -/
theorem NumericDate.lt_Time_add (t : Int) :
    t < NumericDate.Time (NewNumericDate t) + 1000000000 := by
  unfold NumericDate.Time NewNumericDate
  omega

/-- The validator accepts the claims of an issued token exactly while the current time
is before the written expiry. -/
theorem validateClaims_issued (now : Int) (email : String) (now₁ now₂ d : Int) :
    validateClaims now (issuedClaims email now₁ now₂ d) =
      if now < NumericDate.Time (NewNumericDate (now₂ + d)) then []
      else ["token is expired"] := by
  simp [validateClaims, issuedClaims]

/-- A successful `GenerateToken` returns the signing string of the issued claims, a dot,
and the encoded HMAC of the signing string under the secret. -/
theorem GenerateToken_ok (L : Lib) (now₁ now₂ : Int) (email secret ttl tok : String)
    (d : Int) (hd : L.ParseDuration ttl = .ok d)
    (hgen : GenerateToken L now₁ now₂ email secret ttl = .ok tok) :
    ∃ sstr, L.SigningString "HS256" (issuedClaims email now₁ now₂ d) = .ok sstr ∧
      tok = sstr ++ "." ++ L.EncodeSegment (hmacSHA256 L (bytes secret) (bytes sstr)) := by
  simp only [GenerateToken, hd, SignedString] at hgen
  change (match L.SigningString "HS256" (issuedClaims email now₁ now₂ d) with
    | .error e => Except.error e
    | .ok sstr => Except.ok (sstr ++ "." ++
        L.EncodeSegment (hmacSHA256 L (bytes secret) (bytes sstr)))) = .ok tok at hgen
  cases hss : L.SigningString "HS256" (issuedClaims email now₁ now₂ d) with
  | error e => rw [hss] at hgen; cases hgen
  | ok sstr =>
    rw [hss] at hgen
    injection hgen with hgen
    exact ⟨sstr, rfl, hgen.symm⟩

/-- What `ParseToken` answers for a token that the library reads back as written and
whose signature is the HMAC under the verifying secret: the verdict of the claims
validator. -/
theorem ParseToken_readsBack (L : Lib) (now : Int) (secret sstr : String)
    (claims : RegisteredClaims)
    (hwire : L.ReadsBack sstr claims (hmacSHA256 L (bytes secret) (bytes sstr))) :
    ParseToken L now
        (sstr ++ "." ++ L.EncodeSegment (hmacSHA256 L (bytes secret) (bytes sstr))) secret =
      match validateClaims now claims with
      | [] => .ok claims.Subject
      | errs => .error ("token has invalid claims: " ++ ", ".intercalate errs) := by
  obtain ⟨h1, h2⟩ := hwire
  simp only [ParseToken, ParseWithClaims, h1, h2]
  simp only [registeredMethods]
  cases hv : validateClaims now claims <;> simp

/-- The verdict of `ParseToken` on a token issued by `GenerateToken` that the library
reads back as written. -/
theorem ParseToken_issued (L : Lib) (now₁ now₂ now : Int) (email secret ttl tok : String)
    (d : Int) (hd : L.ParseDuration ttl = .ok d)
    (hgen : GenerateToken L now₁ now₂ email secret ttl = .ok tok)
    (hwire : ∀ sstr, L.SigningString "HS256" (issuedClaims email now₁ now₂ d) = .ok sstr →
      L.ReadsBack sstr (issuedClaims email now₁ now₂ d)
        (hmacSHA256 L (bytes secret) (bytes sstr))) :
    ParseToken L now tok secret =
      if now < NumericDate.Time (NewNumericDate (now₂ + d)) then .ok email
      else .error "token has invalid claims: token is expired" := by
  obtain ⟨sstr, hss, rfl⟩ := GenerateToken_ok L now₁ now₂ email secret ttl tok d hd hgen
  rw [ParseToken_readsBack L now secret sstr _ (hwire sstr hss), validateClaims_issued]
  by_cases h : now < NumericDate.Time (NewNumericDate (now₂ + d))
  · simp [h, issuedClaims]
  · simp [h]
    decide

/-- C4, refuted as stated: with ttl "0s" `GenerateToken` succeeds, and `ParseToken` at
the same clock reading with the same secret answers "token is expired". -/
theorem C4_counterexample_zero_ttl :
    GenerateToken toyLib t₀ t₀ "bob@example.com" "supersecretkey" "0s" =
      .ok bobTokenZeroTtl ∧
    ParseToken toyLib t₀
      bobTokenZeroTtl
      "supersecretkey" = .error "token has invalid claims: token is expired" := by
  constructor <;> decide

/-- C4, amended: for every email, secret and ttl for which `GenerateToken` succeeds,
with a token that the library reads back as written, `ParseToken` at the clock reading
of the issue and with the same secret returns the original email whenever that reading
is before the written expiry (the reading plus the ttl, truncated to whole seconds), in
particular for every ttl of at least one second; otherwise it answers "token is
expired". -/
theorem C4_issue_then_verify (L : Lib) (now₁ now₂ : Int) (email secret ttl tok : String)
    (d : Int) (hd : L.ParseDuration ttl = .ok d)
    (hgen : GenerateToken L now₁ now₂ email secret ttl = .ok tok)
    (hwire : ∀ sstr, L.SigningString "HS256" (issuedClaims email now₁ now₂ d) = .ok sstr →
      L.ReadsBack sstr (issuedClaims email now₁ now₂ d)
        (hmacSHA256 L (bytes secret) (bytes sstr))) :
    (now₂ < NumericDate.Time (NewNumericDate (now₂ + d)) →
      ParseToken L now₂ tok secret = .ok email) ∧
    (1000000000 ≤ d → ParseToken L now₂ tok secret = .ok email) ∧
    (¬ now₂ < NumericDate.Time (NewNumericDate (now₂ + d)) →
      ParseToken L now₂ tok secret = .error "token has invalid claims: token is expired") := by
  have key := ParseToken_issued L now₁ now₂ now₂ email secret ttl tok d hd hgen hwire
  refine ⟨fun h => by rw [key, if_pos h], fun h => ?_, fun h => by rw [key, if_neg h]⟩
  have h1 := NumericDate.lt_Time_add (now₂ + d)
  rw [key, if_pos (by omega)]

/-- C4 (amended) at a concrete input: the token of the router test's configuration,
ttl "24h", is accepted at the clock reading of its issue. -/
theorem C4_issue_then_verify_witness :
    ParseToken toyLib t₀
      bobToken
      "supersecretkey" = .ok "bob@example.com" :=
  (C4_issue_then_verify toyLib t₀ t₀ "bob@example.com" "supersecretkey" "24h"
    bobToken
    86400000000000 (by decide) (by decide)
    (fun sstr h => by
      injection h with h
      subst h
      constructor <;> decide)).1 (by decide)

/-- C5: for a token issued by `GenerateToken` with clock reading `now₂` and parsed ttl
`d`, which the library reads back as written, `ParseToken` with the same secret returns
an error at every current time later than `now₂ + d`, and whenever it returns a subject
the current time is before `now₂ + d`. -/
theorem C5_expired_token_rejected (L : Lib) (now₁ now₂ now : Int)
    (email secret ttl tok : String) (d : Int) (hd : L.ParseDuration ttl = .ok d)
    (hgen : GenerateToken L now₁ now₂ email secret ttl = .ok tok)
    (hwire : ∀ sstr, L.SigningString "HS256" (issuedClaims email now₁ now₂ d) = .ok sstr →
      L.ReadsBack sstr (issuedClaims email now₁ now₂ d)
        (hmacSHA256 L (bytes secret) (bytes sstr))) :
    (now₂ + d < now →
      ParseToken L now tok secret = .error "token has invalid claims: token is expired") ∧
    (∀ sub, ParseToken L now tok secret = .ok sub → now < now₂ + d) := by
  have key := ParseToken_issued L now₁ now₂ now email secret ttl tok d hd hgen hwire
  have hle := NumericDate.Time_le (now₂ + d)
  constructor
  · intro h
    rw [key, if_neg (by omega)]
  · intro sub h
    rw [key] at h
    by_cases hlt : now < NumericDate.Time (NewNumericDate (now₂ + d))
    · omega
    · rw [if_neg hlt] at h
      cases h

/-- C5 at a concrete input: the 24-hour token issued at `t₀` is rejected one nanosecond
after `t₀` plus 24 hours. -/
theorem C5_expired_token_rejected_witness :
    ParseToken toyLib (t₀ + 86400000000000 + 1)
      bobToken
      "supersecretkey" = .error "token has invalid claims: token is expired" :=
  (C5_expired_token_rejected toyLib t₀ t₀ (t₀ + 86400000000000 + 1) "bob@example.com"
    "supersecretkey" "24h"
    bobToken
    86400000000000 (by decide) (by decide)
    (fun sstr h => by
      injection h with h
      subst h
      constructor <;> decide)).1 (by decide)

/-- A key shorter than a block and the same key followed by a zero byte have the same
HMAC key block. -/
theorem hmacKeyBlock_append_zero (L : Lib) (key : List Nat) (h : key.length < 64) :
    hmacKeyBlock L (key ++ [0]) = hmacKeyBlock L key := by
  have h1 : ¬ (key ++ [0]).length > 64 := by simp; omega
  have h2 : ¬ key.length > 64 := by omega
  have h3 : 64 - key.length = (64 - (key.length + 1)) + 1 := by omega
  simp only [hmacKeyBlock, h1, h2, if_false]
  rw [List.length_append, List.length_singleton, h3, List.replicate_succ,
    List.append_assoc]
  rfl

/-- Whatever the hash, HMAC does not tell a key shorter than a block from the same key
followed by a zero byte. -/
theorem hmacSHA256_append_zero (L : Lib) (key msg : List Nat) (h : key.length < 64) :
    hmacSHA256 L (key ++ [0]) msg = hmacSHA256 L key msg := by
  simp only [hmacSHA256, hmacKeyBlock_append_zero L key h]

/-- C6, refuted as stated: the token signed with the secret "k" is accepted by
`ParseToken` with the different secret "k" followed by a zero byte, and its subject is
returned.  (By `hmacSHA256_append_zero` this is so for every hash, not only the toy one:
HMAC pads a short key with zero bytes.) -/
theorem C6_counterexample_zero_padded_secret :
    "k" ≠ "k\x00" ∧
    bytes "k\x00" = bytes "k" ++ [0] ∧
    GenerateToken toyLib t₀ t₀ "bob@example.com" "k" "24h" = .ok bobTokenK ∧
    ParseToken toyLib t₀ bobTokenK "k\x00" = .ok "bob@example.com" := by
  refine ⟨by decide, by decide, by decide, by decide⟩

/-- The HMAC is the hash of the outer input. -/
theorem hmacSHA256_eq_outer (L : Lib) (key msg : List Nat) :
    hmacSHA256 L key msg = L.sha256 (hmacOuter L key msg) := rfl

/-- An HMAC key block has 64 bytes. -/
theorem hmacKeyBlock_length (L : Lib) (key : List Nat) : (hmacKeyBlock L key).length = 64 := by
  simp only [hmacKeyBlock, List.length_take, List.length_append, List.length_replicate]
  omega

/-- Two keys with different key blocks have different HMACs of a message, provided the
hash does not collide on the two outer inputs. -/
theorem hmacSHA256_ne_of_keyBlock_ne (L : Lib) (k₁ k₂ msg : List Nat)
    (hblock : hmacKeyBlock L k₁ ≠ hmacKeyBlock L k₂)
    (hfree : L.sha256 (hmacOuter L k₁ msg) = L.sha256 (hmacOuter L k₂ msg) →
      hmacOuter L k₁ msg = hmacOuter L k₂ msg) :
    hmacSHA256 L k₁ msg ≠ hmacSHA256 L k₂ msg := by
  intro h
  rw [hmacSHA256_eq_outer, hmacSHA256_eq_outer] at h
  have hout := hfree h
  simp only [hmacOuter] at hout
  have hpad := List.append_inj_left hout
    (by rw [List.length_map, List.length_map, hmacKeyBlock_length, hmacKeyBlock_length])
  exact hblock (List.map_injective_iff.mpr Nat.xor_left_injective hpad)

/-- What `ParseToken` with the secret `s₂` answers for a token signed with the secret
`s₁` that the library reads back as written: the verdict of the claims validator when the
two HMACs of the signing string agree, the signature error when they differ. -/
theorem ParseToken_signed (L : Lib) (now : Int) (s₁ s₂ sstr : String)
    (claims : RegisteredClaims)
    (hwire : L.ReadsBack sstr claims (hmacSHA256 L (bytes s₁) (bytes sstr))) :
    ParseToken L now
        (sstr ++ "." ++ L.EncodeSegment (hmacSHA256 L (bytes s₁) (bytes sstr))) s₂ =
      if hmacSHA256 L (bytes s₁) (bytes sstr) = hmacSHA256 L (bytes s₂) (bytes sstr) then
        match validateClaims now claims with
        | [] => .ok claims.Subject
        | errs => .error ("token has invalid claims: " ++ ", ".intercalate errs)
      else .error "token signature is invalid: signature is invalid" := by
  obtain ⟨h1, h2⟩ := hwire
  simp only [ParseToken, ParseWithClaims, h1, h2]
  simp only [registeredMethods]
  by_cases hmac : hmacSHA256 L (bytes s₁) (bytes sstr) = hmacSHA256 L (bytes s₂) (bytes sstr)
  · cases hv : validateClaims now claims <;> simp [hmac]
  · simp [hmac]

/-- A token whose header does not name HS256 is rejected by `ParseToken`, whatever the
secret. -/
theorem ParseToken_error_of_alg_ne (L : Lib) (now : Int) (token secret : String)
    (seg : Segments) (hseg : L.ParseSegments token = .ok seg)
    (halg : seg.alg ≠ some "HS256") :
    ∃ e, ParseToken L now token secret = .error e := by
  simp only [ParseToken, ParseWithClaims, hseg]
  cases ha : seg.alg with
  | none => exact ⟨_, rfl⟩
  | some alg =>
    have hhs : alg ≠ "HS256" := fun h => halg (by rw [ha, h])
    by_cases hreg : alg ∈ registeredMethods
    · simp [hreg, hhs]
    · simp [hreg]

/-- C6, amended: for every token signed (HS256) with a secret `s₁` that the library
reads back as written, `ParseToken(token, s₂)` returns the signature error, and so no
subject, whenever the HMAC-SHA256 of the token's signing string under `s₂` differs from
the one under `s₁`; that is the case whenever `s₁` and `s₂` have different HMAC key
blocks and the hash does not collide on the two outer HMAC inputs; when the two HMACs
agree (as for a short secret and the same secret followed by zero bytes) the token is
treated under `s₂` exactly as under `s₁`.  And for every token whose header declares a
signing algorithm other than HS256 (including "none" and no algorithm at all),
`ParseToken` returns an error and no subject. -/
theorem C6_other_secret_or_algorithm_rejected (L : Lib) (now : Int) (s₁ s₂ : String) :
    (∀ (claims : RegisteredClaims) (tok sstr : String),
      SignedString L claims (bytes s₁) = .ok tok →
      L.SigningString "HS256" claims = .ok sstr →
      L.ReadsBack sstr claims (hmacSHA256 L (bytes s₁) (bytes sstr)) →
      (hmacSHA256 L (bytes s₁) (bytes sstr) ≠ hmacSHA256 L (bytes s₂) (bytes sstr) →
        ParseToken L now tok s₂ =
          .error "token signature is invalid: signature is invalid" ∧
        ∀ sub, ParseToken L now tok s₂ ≠ .ok sub) ∧
      (hmacKeyBlock L (bytes s₁) ≠ hmacKeyBlock L (bytes s₂) →
        (L.sha256 (hmacOuter L (bytes s₁) (bytes sstr)) =
            L.sha256 (hmacOuter L (bytes s₂) (bytes sstr)) →
          hmacOuter L (bytes s₁) (bytes sstr) = hmacOuter L (bytes s₂) (bytes sstr)) →
        ParseToken L now tok s₂ =
          .error "token signature is invalid: signature is invalid" ∧
        ∀ sub, ParseToken L now tok s₂ ≠ .ok sub) ∧
      (hmacSHA256 L (bytes s₁) (bytes sstr) = hmacSHA256 L (bytes s₂) (bytes sstr) →
        ParseToken L now tok s₂ = ParseToken L now tok s₁)) ∧
    (∀ (tok : String) (seg : Segments),
      L.ParseSegments tok = .ok seg → seg.alg ≠ some "HS256" →
      (∃ e, ParseToken L now tok s₂ = .error e) ∧
      ∀ sub, ParseToken L now tok s₂ ≠ .ok sub) := by
  constructor
  · intro claims tok sstr hsign hss hwire
    have htok : tok = sstr ++ "." ++
        L.EncodeSegment (hmacSHA256 L (bytes s₁) (bytes sstr)) := by
      simp only [SignedString, hss] at hsign
      injection hsign with hsign
      exact hsign.symm
    subst htok
    have hdiff : hmacSHA256 L (bytes s₁) (bytes sstr) ≠ hmacSHA256 L (bytes s₂) (bytes sstr) →
        ParseToken L now (sstr ++ "." ++
            L.EncodeSegment (hmacSHA256 L (bytes s₁) (bytes sstr))) s₂ =
          .error "token signature is invalid: signature is invalid" ∧
        ∀ sub, ParseToken L now (sstr ++ "." ++
            L.EncodeSegment (hmacSHA256 L (bytes s₁) (bytes sstr))) s₂ ≠ .ok sub := by
      intro hne
      have herr := ParseToken_signed L now s₁ s₂ sstr claims hwire
      rw [if_neg hne] at herr
      refine ⟨herr, fun sub h => ?_⟩
      rw [herr] at h
      cases h
    refine ⟨hdiff, fun hblock hfree => ?_, fun heq => ?_⟩
    · exact hdiff (hmacSHA256_ne_of_keyBlock_ne L _ _ _ hblock hfree)
    · rw [ParseToken_signed L now s₁ s₂ sstr claims hwire,
        ParseToken_signed L now s₁ s₁ sstr claims hwire, if_pos heq, if_pos rfl]
  · intro tok seg hseg halg
    obtain ⟨e, he⟩ := ParseToken_error_of_alg_ne L now tok s₂ seg hseg halg
    refine ⟨⟨e, he⟩, fun sub h => ?_⟩
    rw [he] at h
    cases h

/-- C6 (amended) at concrete inputs: Bob's token, signed under the test secret, is
rejected under the secret "othersecret", whose HMAC and key block differ; and the
unsigned token whose header says "none" is rejected. -/
theorem C6_other_secret_or_algorithm_rejected_witness :
    (ParseToken toyLib t₀ bobToken "othersecret" =
        .error "token signature is invalid: signature is invalid" ∧
      ∀ sub, ParseToken toyLib t₀ bobToken "othersecret" ≠ .ok sub) ∧
    (ParseToken toyLib t₀ bobToken "othersecret" =
        .error "token signature is invalid: signature is invalid" ∧
      ∀ sub, ParseToken toyLib t₀ bobToken "othersecret" ≠ .ok sub) ∧
    ((∃ e, ParseToken toyLib t₀ bobTokenNone "supersecretkey" = .error e) ∧
      ∀ sub, ParseToken toyLib t₀ bobTokenNone "supersecretkey" ≠ .ok sub) :=
  ⟨((C6_other_secret_or_algorithm_rejected toyLib t₀ "supersecretkey" "othersecret").1
      (issuedClaims "bob@example.com" t₀ t₀ 86400000000000) bobToken bobSigningString
      (by decide) (by decide) (by constructor <;> decide)).1 (by decide),
   ((C6_other_secret_or_algorithm_rejected toyLib t₀ "supersecretkey" "othersecret").1
      (issuedClaims "bob@example.com" t₀ t₀ 86400000000000) bobToken bobSigningString
      (by decide) (by decide) (by constructor <;> decide)).2.1 (by decide)
      (fun h => absurd h (by decide)),
   (C6_other_secret_or_algorithm_rejected toyLib t₀ "othersecret" "supersecretkey").2
      bobTokenNone
      { alg := some "none",
        claims := { issuedClaims "bob@example.com" t₀ t₀ 86400000000000 with
                    IssuedAt := some 1700000000 },
        signingString :=
          "none.98_111_98_64_101_120_97_109_112_108_101_46_99_111_109_,1700086400,x,1700000000",
        signature := "" }
      (by decide) (by decide)⟩

/-! ### Middleware -/

/-- The text of a concatenation. -/
theorem data_append (a b : String) : (a ++ b).data = a.data ++ b.data := by
  cases a; cases b; rfl

/-- Concatenation on the left can be cancelled. -/
theorem append_left_cancel (a b c : String) (h : a ++ b = a ++ c) : b = c := by
  have h1 := congrArg String.data h
  rw [data_append, data_append] at h1
  exact String.ext (List.append_cancel_left h1)

/-- Concatenation on the right can be cancelled. -/
theorem append_right_cancel (a b c : String) (h : a ++ c = b ++ c) : a = b := by
  have h1 := congrArg String.data h
  rw [data_append, data_append] at h1
  exact String.ext (List.append_cancel_right h1)

/-- A text that starts with `pre` has `pre` as a prefix. -/
theorem HasPrefix_append (pre t : String) : HasPrefix (pre ++ t) pre = true := by
  simp [HasPrefix, data_append]

/-- Trimming `pre` from a text that starts with it leaves the rest. -/
theorem TrimPrefix_append (pre t : String) : TrimPrefix (pre ++ t) pre = t := by
  simp [TrimPrefix, HasPrefix_append, data_append]

/-- A text with the prefix "Bearer " is not empty. -/
theorem ne_empty_of_HasPrefix_Bearer (s : String) (h : HasPrefix s "Bearer " = true) :
    s ≠ "" := by
  rintro rfl
  revert h
  decide

/-- The responses of `http.Error` with one status are equal only for equal messages. -/
theorem httpError_inj (a b : String) (code : Nat) (h : httpError a code = httpError b code) :
    a = b := by
  simp only [httpError, Response.mk.injEq, Body.text.injEq, true_and] at h
  exact append_right_cancel a b "\n" h

/-- C7: when the `Authorization` field is missing or empty, or is not empty but does not
start with "Bearer " (compared byte for byte), the middleware answers 401 through
`http.Error`, and makes no call: neither to the token verifier nor to the next
handler. -/
theorem C7_missing_or_malformed_header_rejected (L : Lib) (now : Int) (secret : String)
    (next : Request → Response) (r : Request)
    (h : r.Header.Get "Authorization" = "" ∨
      HasPrefix (r.Header.Get "Authorization") "Bearer " = false) :
    (JWTMiddleware L now secret next r).response.status = 401 ∧
    (JWTMiddleware L now secret next r).calls = [] ∧
    (JWTMiddleware L now secret next r).rejection =
      some (JWTMiddleware L now secret next r).response := by
  by_cases he : r.Header.Get "Authorization" = ""
  · simp [JWTMiddleware, he, httpError]
  · rcases h with h | h
    · exact absurd h he
    · simp [JWTMiddleware, he, h, httpError]

/-- C7 at concrete inputs: a request without the field, and one whose field says
"bearer" in lower case. -/
theorem C7_missing_or_malformed_header_rejected_witness :
    ((JWTMiddleware toyLib t₀ "supersecretkey" echoEmail noAuthorization).response.status
        = 401 ∧
      (JWTMiddleware toyLib t₀ "supersecretkey" echoEmail noAuthorization).calls = [] ∧
      (JWTMiddleware toyLib t₀ "supersecretkey" echoEmail noAuthorization).rejection =
        some (JWTMiddleware toyLib t₀ "supersecretkey" echoEmail noAuthorization).response) ∧
    ((JWTMiddleware toyLib t₀ "supersecretkey" echoEmail
        (withAuthorization ("bearer " ++ bobToken))).response.status = 401 ∧
      (JWTMiddleware toyLib t₀ "supersecretkey" echoEmail
        (withAuthorization ("bearer " ++ bobToken))).calls = [] ∧
      (JWTMiddleware toyLib t₀ "supersecretkey" echoEmail
        (withAuthorization ("bearer " ++ bobToken))).rejection =
        some (JWTMiddleware toyLib t₀ "supersecretkey" echoEmail
          (withAuthorization ("bearer " ++ bobToken))).response) :=
  ⟨C7_missing_or_malformed_header_rejected toyLib t₀ "supersecretkey" echoEmail
      noAuthorization (Or.inl (by decide)),
   C7_missing_or_malformed_header_rejected toyLib t₀ "supersecretkey" echoEmail
      (withAuthorization ("bearer " ++ bobToken)) (Or.inr (by decide))⟩

/-- C8, refuted as stated: a token without dots and an expired token both fail
verification, and the two 401 responses differ: each body is "Invalid token: " followed
by the text of the verification error, so the error text occurs in the body. -/
theorem C8_counterexample_error_text_in_body :
    ParseToken toyLib t₁ "x" "supersecretkey" =
      .error "token is malformed: token contains an invalid number of segments" ∧
    ParseToken toyLib t₁ bobToken "supersecretkey" =
      .error "token has invalid claims: token is expired" ∧
    (JWTMiddleware toyLib t₁ "supersecretkey" echoEmail
        (withAuthorization "Bearer x")).response =
      httpError
        "Invalid token: token is malformed: token contains an invalid number of segments"
        401 ∧
    (JWTMiddleware toyLib t₁ "supersecretkey" echoEmail
        (withAuthorization ("Bearer " ++ bobToken))).response =
      httpError "Invalid token: token has invalid claims: token is expired" 401 ∧
    occursIn "token has invalid claims: token is expired"
      (JWTMiddleware toyLib t₁ "supersecretkey" echoEmail
        (withAuthorization ("Bearer " ++ bobToken))).response.body.asText = true ∧
    (JWTMiddleware toyLib t₁ "supersecretkey" echoEmail
        (withAuthorization "Bearer x")).response ≠
      (JWTMiddleware toyLib t₁ "supersecretkey" echoEmail
        (withAuthorization ("Bearer " ++ bobToken))).response := by
  refine ⟨by decide, by decide, by decide, by decide, by decide, by decide⟩

/-- C8, amended: for every request whose `Authorization` field starts with "Bearer "
and whose token fails verification, the middleware answers 401 through `http.Error`
with the body "Invalid token: " followed by the text of the verification error, after
one call to the verifier and none to the next handler; two such requests get the same
response exactly when their verification errors have the same text. -/
theorem C8_failed_token_response (L : Lib) (now : Int) (secret : String)
    (next : Request → Response) (r₁ r₂ : Request) (e₁ e₂ : String)
    (hpre₁ : HasPrefix (r₁.Header.Get "Authorization") "Bearer " = true)
    (hpre₂ : HasPrefix (r₂.Header.Get "Authorization") "Bearer " = true)
    (hfail₁ : ParseToken L now (TrimPrefix (r₁.Header.Get "Authorization") "Bearer ") secret
      = .error e₁)
    (hfail₂ : ParseToken L now (TrimPrefix (r₂.Header.Get "Authorization") "Bearer ") secret
      = .error e₂) :
    (JWTMiddleware L now secret next r₁).response = httpError ("Invalid token: " ++ e₁) 401 ∧
    (JWTMiddleware L now secret next r₁).response.status = 401 ∧
    (JWTMiddleware L now secret next r₁).calls =
      [MwCall.ParseToken (TrimPrefix (r₁.Header.Get "Authorization") "Bearer ") secret] ∧
    ((JWTMiddleware L now secret next r₁).response =
        (JWTMiddleware L now secret next r₂).response ↔ e₁ = e₂) := by
  have hne₁ := ne_empty_of_HasPrefix_Bearer _ hpre₁
  have hne₂ := ne_empty_of_HasPrefix_Bearer _ hpre₂
  have hr₁ : (JWTMiddleware L now secret next r₁).response =
      httpError ("Invalid token: " ++ e₁) 401 := by
    simp [JWTMiddleware, hne₁, hpre₁, hfail₁]
  have hr₂ : (JWTMiddleware L now secret next r₂).response =
      httpError ("Invalid token: " ++ e₂) 401 := by
    simp [JWTMiddleware, hne₂, hpre₂, hfail₂]
  refine ⟨hr₁, by rw [hr₁]; rfl, by simp [JWTMiddleware, hne₁, hpre₁, hfail₁], ?_⟩
  rw [hr₁, hr₂]
  constructor
  · intro h
    exact append_left_cancel "Invalid token: " e₁ e₂ (httpError_inj _ _ 401 h)
  · rintro rfl
    rfl

/-- C8 (amended) at a concrete input: the token without dots and the expired token. -/
theorem C8_failed_token_response_witness :
    (JWTMiddleware toyLib t₁ "supersecretkey" echoEmail
        (withAuthorization "Bearer x")).response =
      httpError ("Invalid token: " ++
        "token is malformed: token contains an invalid number of segments") 401 ∧
    (JWTMiddleware toyLib t₁ "supersecretkey" echoEmail
        (withAuthorization "Bearer x")).response.status = 401 ∧
    (JWTMiddleware toyLib t₁ "supersecretkey" echoEmail
        (withAuthorization "Bearer x")).calls =
      [MwCall.ParseToken
        (TrimPrefix ((withAuthorization "Bearer x").Header.Get "Authorization") "Bearer ")
        "supersecretkey"] ∧
    ((JWTMiddleware toyLib t₁ "supersecretkey" echoEmail
        (withAuthorization "Bearer x")).response =
      (JWTMiddleware toyLib t₁ "supersecretkey" echoEmail
        (withAuthorization ("Bearer " ++ bobToken))).response ↔
      "token is malformed: token contains an invalid number of segments" =
        "token has invalid claims: token is expired") :=
  C8_failed_token_response toyLib t₁ "supersecretkey" echoEmail
    (withAuthorization "Bearer x") (withAuthorization ("Bearer " ++ bobToken))
    "token is malformed: token contains an invalid number of segments"
    "token has invalid claims: token is expired"
    (by decide) (by decide) (by decide) (by decide)

/-- C9: when the `Authorization` field is "Bearer " followed by a token `t` and
`ParseToken(t, secret)` returns `subject` without error, the middleware calls the
verifier once and then the next handler exactly once, with the request whose context
carries `subject` under the user-email key (and is otherwise the incoming request);
it writes no rejection, and the client receives the next handler's response. -/
theorem C9_verified_token_forwarded (L : Lib) (now : Int) (secret : String)
    (next : Request → Response) (r : Request) (t subject : String)
    (hhdr : r.Header.Get "Authorization" = "Bearer " ++ t)
    (hok : ParseToken L now t secret = .ok subject) :
    (JWTMiddleware L now secret next r).calls =
      [MwCall.ParseToken t secret, MwCall.ServeHTTP (r.WithValue userEmailKey subject)] ∧
    (r.WithValue userEmailKey subject).Value userEmailKey = some subject ∧
    (r.WithValue userEmailKey subject).Header = r.Header ∧
    (r.WithValue userEmailKey subject).Body = r.Body ∧
    (JWTMiddleware L now secret next r).rejection = none ∧
    (JWTMiddleware L now secret next r).response =
      next (r.WithValue userEmailKey subject) := by
  have hne : "Bearer " ++ t ≠ "" := ne_empty_of_HasPrefix_Bearer _ (HasPrefix_append _ _)
  simp [JWTMiddleware, hhdr, hne, HasPrefix_append, TrimPrefix_append, hok,
    Request.WithValue, Request.Value]

/-- C9 at a concrete input: Bob's token at the time of its issue. -/
theorem C9_verified_token_forwarded_witness :
    (JWTMiddleware toyLib t₀ "supersecretkey" echoEmail
        (withAuthorization ("Bearer " ++ bobToken))).calls =
      [MwCall.ParseToken bobToken "supersecretkey",
       MwCall.ServeHTTP
        ((withAuthorization ("Bearer " ++ bobToken)).WithValue userEmailKey
          "bob@example.com")] ∧
    ((withAuthorization ("Bearer " ++ bobToken)).WithValue userEmailKey
        "bob@example.com").Value userEmailKey = some "bob@example.com" ∧
    ((withAuthorization ("Bearer " ++ bobToken)).WithValue userEmailKey
        "bob@example.com").Header = (withAuthorization ("Bearer " ++ bobToken)).Header ∧
    ((withAuthorization ("Bearer " ++ bobToken)).WithValue userEmailKey
        "bob@example.com").Body = (withAuthorization ("Bearer " ++ bobToken)).Body ∧
    (JWTMiddleware toyLib t₀ "supersecretkey" echoEmail
        (withAuthorization ("Bearer " ++ bobToken))).rejection = none ∧
    (JWTMiddleware toyLib t₀ "supersecretkey" echoEmail
        (withAuthorization ("Bearer " ++ bobToken))).response =
      echoEmail ((withAuthorization ("Bearer " ++ bobToken)).WithValue userEmailKey
        "bob@example.com") :=
  C9_verified_token_forwarded toyLib t₀ "supersecretkey" echoEmail
    (withAuthorization ("Bearer " ++ bobToken)) bobToken "bob@example.com"
    (by decide) (by decide)

/-! ### Registration handler -/

/-- A field passes `firstFailed` exactly when none of its checks is false. -/
theorem firstFailed_eq_nil (field : String) (checks : List (String × Bool)) :
    firstFailed field checks = [] ↔ ∀ c ∈ checks, c.2 = true := by
  unfold firstFailed
  cases h : checks.find? (fun c => !c.2) with
  | none =>
    simp only [true_iff]
    intro c hc
    have := List.find?_eq_none.mp h c hc
    simpa using this
  | some c =>
    simp only [List.cons_ne_nil, false_iff]
    intro hall
    have hmem := List.mem_of_find?_eq_some h
    have hc := List.find?_some h
    rw [hall c hmem] at hc
    simp at hc

/-- An input that passes `validateRegister` has a non-empty name, an email that matches
the validator's pattern, an IP that `net.ParseIP` accepts and a password of at least
6 characters. -/
theorem validateRegister_eq_nil (L : Lib) (i : RegisterInput)
    (h : validateRegister L i = []) :
    i.Name ≠ "" ∧ L.isEmail i.Email = true ∧ L.ParseIP i.IP = true ∧
      6 ≤ i.Password.length := by
  simp only [validateRegister, List.append_eq_nil, firstFailed_eq_nil] at h
  obtain ⟨⟨⟨hn, he⟩, hi⟩, hp⟩ := h
  refine ⟨?_, ?_, ?_, ?_⟩
  · simpa using hn ("required", i.Name != "") (by simp)
  · simpa using he ("email", L.isEmail i.Email) (by simp)
  · simpa using hi ("ip", L.ParseIP i.IP) (by simp)
  · simpa using hp ("min", decide (6 ≤ i.Password.length)) (by simp)

/-- C10: for every registration body that decodes to an input in which the name is
empty, or the email fails the validator's pattern or `mail.ParseAddress`, or the ip is
not accepted by `net.ParseIP`, or the password has fewer than 6 characters,
`RegisterUser` answers 400, calls neither the GeoIP lookup nor `Save` (it makes no
collaborator call at all) and leaves the store as it was. -/
theorem C10_invalid_registration_rejected {σ : Type} (L : Lib) (repo : UserRepository σ)
    (geoIP : GeoIPService) (st : σ) (r : Request) (input : RegisterInput)
    (hdec : L.decodeRegister r.Body = .ok input)
    (hbad : input.Name = "" ∨ L.isEmail input.Email = false ∨
      L.ParseAddress input.Email = false ∨ L.ParseIP input.IP = false ∨
      input.Password.length < 6) :
    (RegisterUser L repo geoIP st r).response.status = 400 ∧
    (RegisterUser L repo geoIP st r).calls = [] ∧
    (RegisterUser L repo geoIP st r).store = st := by
  cases hv : validateRegister L input with
  | cons f fs => simp [RegisterUser, hdec, hv, httpError]
  | nil =>
    obtain ⟨hn, he, hi, hp⟩ := validateRegister_eq_nil L input hv
    have hpa : L.ParseAddress input.Email = false := by
      rcases hbad with h | h | h | h | h
      · exact absurd h hn
      · rw [he] at h; cases h
      · exact h
      · rw [hi] at h; cases h
      · omega
    simp [RegisterUser, hdec, hv, hi, hpa, httpError]

/-- C10 at a concrete input: the body of `TestRegisterValidationFail`. -/
theorem C10_invalid_registration_rejected_witness :
    (RegisterUser toyLib mockRepo geoIPMock [] badRegistration).response.status = 400 ∧
    (RegisterUser toyLib mockRepo geoIPMock [] badRegistration).calls = [] ∧
    (RegisterUser toyLib mockRepo geoIPMock [] badRegistration).store = [] :=
  C10_invalid_registration_rejected toyLib mockRepo geoIPMock [] badRegistration
    { Name := "", Email := "bad", IP := "not_ip", Password := "1" }
    (by decide) (Or.inl rfl)

/-! ### Serialisation of users -/

/-- Every member that `User.MarshalJSON` writes has one of the five public names. -/
theorem MarshalJSON_members (u : User) : ∀ m ∈ u.MarshalJSON, m.1 ∈ publicFields := by
  intro m hm
  simp only [User.MarshalJSON, List.mem_append, List.mem_cons] at hm
  rcases hm with (hm | hm) | hm
  · split at hm
    · simp at hm
    · simp only [List.mem_singleton] at hm
      subst hm
      simp [publicFields]
  · rcases hm with hm | hm | hm | hm
    · subst hm; simp [publicFields]
    · subst hm; simp [publicFields]
    · subst hm; simp [publicFields]
    · simp at hm
  · split at hm
    · simp at hm
    · simp only [List.mem_singleton] at hm
      subst hm
      simp [publicFields]

/-- The JSON of a user does not depend on the password hash. -/
theorem MarshalJSON_erase (u : User) (h : String) :
    ({ u with PasswordHash := h }).MarshalJSON = u.MarshalJSON := rfl

/-- What `RegisterUser` writes: a text body, or with status 201 the JSON of one user. -/
theorem RegisterUser_body {σ : Type} (L : Lib) (repo : UserRepository σ)
    (geoIP : GeoIPService) (st : σ) (r : Request) :
    (∃ t, (RegisterUser L repo geoIP st r).response.body = Body.text t ∧
      (RegisterUser L repo geoIP st r).response.status ≠ 201) ∨
    (∃ v : User, (RegisterUser L repo geoIP st r).response.body = Body.object v.MarshalJSON ∧
      (RegisterUser L repo geoIP st r).response.status = 201) := by
  cases hdec : L.decodeRegister r.Body with
  | error e =>
    refine Or.inl ⟨"invalid JSON\n", ?_, ?_⟩ <;> simp [RegisterUser, hdec, httpError]
  | ok input =>
    cases hv : validateRegister L input with
    | cons f fs =>
      refine Or.inl ⟨L.validationError (f :: fs) ++ "\n", ?_, ?_⟩ <;>
        simp [RegisterUser, hdec, hv, httpError]
    | nil =>
      by_cases hip : L.ParseIP input.IP = true
      · by_cases hpa : L.ParseAddress input.Email = true
        · cases hgen : L.GenerateFromPassword input.Password with
          | error e =>
            refine Or.inl ⟨"failed to hash password\n", ?_, ?_⟩ <;>
              simp [RegisterUser, hdec, hv, hip, hpa, hgen, httpError]
          | ok passwordHash =>
            cases herr : (CreateUser repo geoIP st
                { ID := "", Name := input.Name, Email := input.Email, IP := input.IP,
                  Country := "", PasswordHash := passwordHash }).err with
            | some e =>
              refine Or.inl ⟨e ++ "\n", ?_, ?_⟩ <;>
                simp [RegisterUser, hdec, hv, hip, hpa, hgen, herr, httpError]
            | none =>
              refine Or.inr ⟨(CreateUser repo geoIP st
                { ID := "", Name := input.Name, Email := input.Email, IP := input.IP,
                  Country := "", PasswordHash := passwordHash }).user, ?_, ?_⟩ <;>
                simp [RegisterUser, hdec, hv, hip, hpa, hgen, herr]
        · refine Or.inl ⟨"invalid email address\n", ?_, ?_⟩ <;>
            simp [RegisterUser, hdec, hv, hip, hpa, httpError]
      · refine Or.inl ⟨"invalid IP address\n", ?_, ?_⟩ <;>
          simp [RegisterUser, hdec, hv, hip, httpError]

/-- C11: for every user, the JSON that `encoding/json` writes for it has members named
only "id", "name", "email", "ip" and "country" and is the same whatever the value of
`PasswordHash`; and the JSON bodies of `RegisterUser`, `GetUsers` and `GetUserByID` are
made of such user objects only: every member of a body written by one of the three
handlers has one of the five names, the 201 body of `RegisterUser` is the JSON of one
user, and the bodies of `GetUsers` and `GetUserByID` are the JSON of the users the
repository returned with their hashes blanked. -/
theorem C11_password_hash_never_serialized {σ : Type} (L : Lib) (repo : UserRepository σ)
    (geoIP : GeoIPService) (st : σ) (r : Request) (id : String) (u : User) (h : String) :
    ({ u with PasswordHash := h }).MarshalJSON = u.MarshalJSON ∧
    (∀ m ∈ u.MarshalJSON, m.1 ∈ publicFields) ∧
    (∀ m ∈ (RegisterUser L repo geoIP st r).response.body.members, m.1 ∈ publicFields) ∧
    (∀ m ∈ (GetUsers repo st).body.members, m.1 ∈ publicFields) ∧
    (∀ m ∈ (UserHandler.GetUserByID repo st id).body.members, m.1 ∈ publicFields) ∧
    ((RegisterUser L repo geoIP st r).response.status = 201 →
      ∃ v : User, (RegisterUser L repo geoIP st r).response.body =
        Body.object ({ v with PasswordHash := "" }).MarshalJSON) ∧
    (∀ users, repo.GetAll st = .ok users →
      (GetUsers repo st).body =
        Body.array (users.map (fun v => ({ v with PasswordHash := "" }).MarshalJSON))) ∧
    (∀ v, repo.GetByID st id = .ok (some v) →
      (UserHandler.GetUserByID repo st id).body =
        Body.object ({ v with PasswordHash := "" }).MarshalJSON) := by
  refine ⟨rfl, MarshalJSON_members u, ?_, ?_, ?_, ?_, ?_, ?_⟩
  · intro m hm
    rcases RegisterUser_body L repo geoIP st r with ⟨t, ht, _⟩ | ⟨v, hv, _⟩
    · rw [ht] at hm
      simp [Body.members] at hm
    · rw [hv] at hm
      exact MarshalJSON_members v m hm
  · intro m hm
    unfold GetUsers GetAllUsers at hm
    cases hall : repo.GetAll st with
    | error e => simp [hall, httpError, Body.members] at hm
    | ok users =>
      simp only [hall, Body.members, List.mem_flatten, List.mem_map] at hm
      obtain ⟨ms, ⟨v, _, rfl⟩, hmem⟩ := hm
      exact MarshalJSON_members v m hmem
  · intro m hm
    unfold UserHandler.GetUserByID UserService.GetUserByID at hm
    cases hid : repo.GetByID st id with
    | error e => simp [hid, httpError, Body.members] at hm
    | ok found =>
      cases found with
      | none => simp [hid, httpError, Body.members] at hm
      | some v =>
        simp only [hid, Body.members] at hm
        exact MarshalJSON_members v m hm
  · intro h201
    rcases RegisterUser_body L repo geoIP st r with ⟨t, _, hne⟩ | ⟨v, hv, _⟩
    · exact absurd h201 hne
    · exact ⟨v, hv⟩
  · intro users hall
    simp only [GetUsers, GetAllUsers, hall]
    rfl
  · intro v hid
    simp only [UserHandler.GetUserByID, UserService.GetUserByID, hid]
    rfl

/-- C11 at a concrete input: the listing of a store that holds Bob shows his five public
fields and not his hash; so does the fetch by id; Alice's registration answers with
her JSON. -/
theorem C11_password_hash_never_serialized_witness :
    GetUsers mockRepo bobStore =
      { status := 200, header := [("Content-Type", "application/json")],
        body := Body.array [[("id", "7"), ("name", "Bob"), ("email", "bob@example.com"),
          ("ip", "1.1.1.1"), ("country", "UA")]] } ∧
    UserHandler.GetUserByID mockRepo bobStore "7" =
      { status := 200, header := [("Content-Type", "application/json")],
        body := Body.object [("id", "7"), ("name", "Bob"), ("email", "bob@example.com"),
          ("ip", "1.1.1.1"), ("country", "UA")] } ∧
    (RegisterUser toyLib mockRepo geoIPMock [] aliceRegistration).response =
      { status := 201, header := [],
        body := Body.object [("name", "Alice"), ("email", "alice@example.com"),
          ("ip", "8.8.8.8"), ("country", "UA")] } ∧
    (∀ m ∈ (GetUsers mockRepo bobStore).body.members, m.1 ∈ publicFields) :=
  ⟨by decide, by decide, by decide,
    (C11_password_hash_never_serialized toyLib mockRepo geoIPMock bobStore aliceRegistration
      "7" bob "").2.2.2.1⟩

/-! ### The empty-IP branch of `CreateUser` -/

/-- C12: for every user whose IP is the empty string, `CreateUser` returns the error
"user IP is required" and makes no call, neither to the GeoIP lookup nor to `Save`; the
user, every field included, and the store are as they were. -/
theorem C12_empty_ip_rejected {σ : Type} (repo : UserRepository σ) (geoIP : GeoIPService)
    (st : σ) (user : User) (hip : user.IP = "") :
    (CreateUser repo geoIP st user).err = some "user IP is required" ∧
    (CreateUser repo geoIP st user).calls = [] ∧
    (CreateUser repo geoIP st user).user = user ∧
    (CreateUser repo geoIP st user).user.Country = user.Country ∧
    (CreateUser repo geoIP st user).store = st := by
  simp [CreateUser, hip]

/-- C12 at a concrete input: Alice without an IP. -/
theorem C12_empty_ip_rejected_witness :
    (CreateUser mockRepo geoIPMock [] { alice with IP := "" }).err =
      some "user IP is required" ∧
    (CreateUser mockRepo geoIPMock [] { alice with IP := "" }).calls = [] ∧
    (CreateUser mockRepo geoIPMock [] { alice with IP := "" }).user =
      { alice with IP := "" } ∧
    (CreateUser mockRepo geoIPMock [] { alice with IP := "" }).user.Country =
      ({ alice with IP := "" } : User).Country ∧
    (CreateUser mockRepo geoIPMock [] { alice with IP := "" }).store = [] :=
  C12_empty_ip_rejected mockRepo geoIPMock [] { alice with IP := "" } rfl

/-! ### `RegisterUser` and the empty-IP branch -/

/-- An input that passes `validateRegister` has a non-empty IP (the tag `required`). -/
theorem validateRegister_IP_ne (L : Lib) (i : RegisterInput)
    (h : validateRegister L i = []) : i.IP ≠ "" := by
  simp only [validateRegister, List.append_eq_nil, firstFailed_eq_nil] at h
  obtain ⟨⟨⟨_, _⟩, hi⟩, _⟩ := h
  simpa using hi ("required", i.IP != "") (by simp)

/-- When `RegisterUser` reaches the call to `CreateUser`, the body decoded to an input
that passed every check and the hasher succeeded; the user is built from that input. -/
theorem toCreate_eq_some (L : Lib) (r : Request) (user : User)
    (h : RegisterUser.toCreate L r = some user) :
    ∃ input passwordHash,
      L.decodeRegister r.Body = .ok input ∧ validateRegister L input = [] ∧
      L.ParseIP input.IP = true ∧ L.ParseAddress input.Email = true ∧
      L.GenerateFromPassword input.Password = .ok passwordHash ∧
      user = { ID := "", Name := input.Name, Email := input.Email, IP := input.IP,
               Country := "", PasswordHash := passwordHash } := by
  unfold RegisterUser.toCreate at h
  cases hdec : L.decodeRegister r.Body with
  | error e => simp [hdec] at h
  | ok input =>
    cases hv : validateRegister L input with
    | cons f fs => simp [hdec, hv] at h
    | nil =>
      by_cases hip : L.ParseIP input.IP = true
      · by_cases hpa : L.ParseAddress input.Email = true
        · cases hgen : L.GenerateFromPassword input.Password with
          | error e => simp [hdec, hv, hip, hpa, hgen] at h
          | ok passwordHash =>
            simp only [hdec, hv, hip, hpa, hgen] at h
            exact ⟨input, passwordHash, rfl, hv, hip, hpa, hgen, by simpa using h.symm⟩
        · simp [hdec, hv, hip, hpa] at h
      · simp [hdec, hv, hip] at h

/-- When `RegisterUser` returns before the call to `CreateUser`, it has made no call,
left the store alone, and answered 400 or the hasher's 500. -/
theorem RegisterUser_of_toCreate_none {σ : Type} (L : Lib) (repo : UserRepository σ)
    (geoIP : GeoIPService) (st : σ) (r : Request)
    (h : RegisterUser.toCreate L r = none) :
    (RegisterUser L repo geoIP st r).calls = [] ∧
    (RegisterUser L repo geoIP st r).store = st ∧
    ((RegisterUser L repo geoIP st r).response.status = 400 ∨
      (RegisterUser L repo geoIP st r).response = httpError "failed to hash password" 500) := by
  unfold RegisterUser.toCreate at h
  cases hdec : L.decodeRegister r.Body with
  | error e => simp [RegisterUser, hdec, httpError]
  | ok input =>
    cases hv : validateRegister L input with
    | cons f fs => simp [RegisterUser, hdec, hv, httpError]
    | nil =>
      by_cases hip : L.ParseIP input.IP = true
      · by_cases hpa : L.ParseAddress input.Email = true
        · cases hgen : L.GenerateFromPassword input.Password with
          | error e => simp [RegisterUser, hdec, hv, hip, hpa, hgen]
          | ok passwordHash => simp [hdec, hv, hip, hpa, hgen] at h
        · simp [RegisterUser, hdec, hv, hip, hpa, httpError]
      · simp [RegisterUser, hdec, hv, hip, httpError]

/-- When `RegisterUser` reaches the call to `CreateUser`, its calls, store and response
are those of that run of `CreateUser`: 500 with the error text, or 201 with the user. -/
theorem RegisterUser_of_toCreate_some {σ : Type} (L : Lib) (repo : UserRepository σ)
    (geoIP : GeoIPService) (st : σ) (r : Request) (user : User)
    (h : RegisterUser.toCreate L r = some user) :
    (RegisterUser L repo geoIP st r).calls = (CreateUser repo geoIP st user).calls ∧
    (RegisterUser L repo geoIP st r).store = (CreateUser repo geoIP st user).store ∧
    (RegisterUser L repo geoIP st r).response =
      match (CreateUser repo geoIP st user).err with
      | some e => httpError e 500
      | none => { status := 201, header := [],
                  body := Body.object (CreateUser repo geoIP st user).user.MarshalJSON } := by
  obtain ⟨input, passwordHash, hdec, hv, hip, hpa, hgen, rfl⟩ := toCreate_eq_some L r user h
  cases herr : (CreateUser repo geoIP st
      { ID := "", Name := input.Name, Email := input.Email, IP := input.IP,
        Country := "", PasswordHash := passwordHash }).err with
  | some e => simp [RegisterUser, hdec, hv, hip, hpa, hgen, herr]
  | none => simp [RegisterUser, hdec, hv, hip, hpa, hgen, herr]

/-- The three outcomes of `CreateUser` for a user with a non-empty IP: success, a failed
lookup, or a failed `Save`. -/
theorem CreateUser_err_of_IP_ne {σ : Type} (repo : UserRepository σ) (geoIP : GeoIPService)
    (st : σ) (user : User) (hip : user.IP ≠ "") :
    (CreateUser repo geoIP st user).err = none ∨
    (∃ e, geoIP.GetCountryByIP user.IP = .error e ∧
      (CreateUser repo geoIP st user).err =
        some ("failed to enrich user with country: " ++ e)) ∨
    (∃ c e, geoIP.GetCountryByIP user.IP = .ok c ∧
      (repo.Save st { user with Country := c }).1 = some e ∧
      (CreateUser repo geoIP st user).err = some ("failed to save user: " ++ e)) := by
  cases hgeo : geoIP.GetCountryByIP user.IP with
  | error e => exact Or.inr (Or.inl ⟨e, rfl, by simp [CreateUser, hip, hgeo]⟩)
  | ok c =>
    rcases hsave : repo.Save st { user with Country := c } with ⟨err, user2, st2⟩
    cases err with
    | none => exact Or.inl (by simp [CreateUser, hip, hgeo, hsave])
    | some e =>
      exact Or.inr (Or.inr ⟨c, e, rfl, by rw [hsave], by simp [CreateUser, hip, hgeo, hsave]⟩)

/-- The lookup error of `CreateUser` is not its empty-IP error. -/
theorem enrich_ne_required (e : String) :
    "failed to enrich user with country: " ++ e ≠ "user IP is required" := by
  intro h
  have h1 := congrArg String.data h
  rw [data_append] at h1
  have h2 := congrArg List.head? h1
  revert h2
  change ¬ (some 'f' = some 'u')
  decide

/-- The `Save` error of `CreateUser` is not its empty-IP error. -/
theorem save_ne_required (e : String) :
    "failed to save user: " ++ e ≠ "user IP is required" := by
  intro h
  have h1 := congrArg String.data h
  rw [data_append] at h1
  have h2 := congrArg List.head? h1
  revert h2
  change ¬ (some 'f' = some 'u')
  decide

/-- C13: for every request handled by `RegisterUser`, whenever the handler reaches the
call to `CreateUser` the user's IP is not empty, and the run is that of `CreateUser` on
that user, which starts with the lookup; when it does not reach the call it makes no
call and answers 400 or the hasher's 500.  So the empty-IP branch of `CreateUser` is not
taken on this path: the response is never the 500 with "user IP is required", and every
500 comes from a failed hashing, a failed lookup or a failed `Save`. -/
theorem C13_empty_ip_branch_unreachable {σ : Type} (L : Lib) (repo : UserRepository σ)
    (geoIP : GeoIPService) (st : σ) (r : Request) :
    (∀ user, RegisterUser.toCreate L r = some user →
      user.IP ≠ "" ∧
      (CreateUser repo geoIP st user).err ≠ some "user IP is required" ∧
      (∃ rest, (CreateUser repo geoIP st user).calls = Call.GetCountryByIP user.IP :: rest) ∧
      (RegisterUser L repo geoIP st r).calls = (CreateUser repo geoIP st user).calls ∧
      (RegisterUser L repo geoIP st r).store = (CreateUser repo geoIP st user).store) ∧
    (RegisterUser.toCreate L r = none →
      (RegisterUser L repo geoIP st r).calls = [] ∧
      ((RegisterUser L repo geoIP st r).response.status = 400 ∨
        (RegisterUser L repo geoIP st r).response =
          httpError "failed to hash password" 500)) ∧
    ((RegisterUser L repo geoIP st r).response.status = 500 →
      (∃ input e, L.decodeRegister r.Body = .ok input ∧
        L.GenerateFromPassword input.Password = .error e ∧
        (RegisterUser L repo geoIP st r).response =
          httpError "failed to hash password" 500) ∨
      (∃ user e, RegisterUser.toCreate L r = some user ∧
        geoIP.GetCountryByIP user.IP = .error e ∧
        (RegisterUser L repo geoIP st r).response =
          httpError ("failed to enrich user with country: " ++ e) 500) ∨
      (∃ user c e, RegisterUser.toCreate L r = some user ∧
        geoIP.GetCountryByIP user.IP = .ok c ∧
        (repo.Save st { user with Country := c }).1 = some e ∧
        (RegisterUser L repo geoIP st r).response =
          httpError ("failed to save user: " ++ e) 500)) ∧
    (RegisterUser L repo geoIP st r).response ≠ httpError "user IP is required" 500 := by
  have hreach : ∀ user, RegisterUser.toCreate L r = some user → user.IP ≠ "" := by
    intro user h
    obtain ⟨input, passwordHash, _, hv, _, _, _, rfl⟩ := toCreate_eq_some L r user h
    exact validateRegister_IP_ne L input hv
  have herrne : ∀ user, user.IP ≠ "" →
      (CreateUser repo geoIP st user).err ≠ some "user IP is required" := by
    intro user hip h
    rcases CreateUser_err_of_IP_ne repo geoIP st user hip with h0 | ⟨e, _, he⟩ | ⟨c, e, _, _, he⟩
    · rw [h0] at h; cases h
    · rw [he] at h
      exact enrich_ne_required e (Option.some.inj h)
    · rw [he] at h
      exact save_ne_required e (Option.some.inj h)
  refine ⟨?_, ?_, ?_, ?_⟩
  · intro user h
    have hip := hreach user h
    obtain ⟨hc, hs, _⟩ := RegisterUser_of_toCreate_some L repo geoIP st r user h
    refine ⟨hip, herrne user hip, ?_, hc, hs⟩
    cases hgeo : geoIP.GetCountryByIP user.IP with
    | error e => exact ⟨[], by simp [CreateUser, hip, hgeo]⟩
    | ok c =>
      rcases hsave : repo.Save st { user with Country := c } with ⟨err, user2, st2⟩
      cases err <;> exact ⟨[Call.Save { user with Country := c }],
        by simp [CreateUser, hip, hgeo, hsave]⟩
  · intro h
    obtain ⟨hc, _, hr⟩ := RegisterUser_of_toCreate_none L repo geoIP st r h
    exact ⟨hc, hr⟩
  · intro h500
    cases hto : RegisterUser.toCreate L r with
    | none =>
      left
      unfold RegisterUser.toCreate at hto
      cases hdec : L.decodeRegister r.Body with
      | error e => simp [RegisterUser, hdec, httpError] at h500
      | ok input =>
        cases hv : validateRegister L input with
        | cons f fs => simp [RegisterUser, hdec, hv, httpError] at h500
        | nil =>
          by_cases hip : L.ParseIP input.IP = true
          · by_cases hpa : L.ParseAddress input.Email = true
            · cases hgen : L.GenerateFromPassword input.Password with
              | error e =>
                exact ⟨input, e, rfl, hgen, by simp [RegisterUser, hdec, hv, hip, hpa, hgen]⟩
              | ok passwordHash => simp [hdec, hv, hip, hpa, hgen] at hto
            · simp [RegisterUser, hdec, hv, hip, hpa, httpError] at h500
          · simp [RegisterUser, hdec, hv, hip, httpError] at h500
    | some user =>
      right
      have hip := hreach user hto
      obtain ⟨_, _, hr⟩ := RegisterUser_of_toCreate_some L repo geoIP st r user hto
      rcases CreateUser_err_of_IP_ne repo geoIP st user hip with
        h0 | ⟨e, hg, he⟩ | ⟨c, e, hg, hsv, he⟩
      · rw [h0] at hr
        rw [hr] at h500
        simp at h500
      · rw [he] at hr
        exact Or.inl ⟨user, e, rfl, hg, hr⟩
      · rw [he] at hr
        exact Or.inr ⟨user, c, e, rfl, hg, hsv, hr⟩
  · intro hbad
    cases hto : RegisterUser.toCreate L r with
    | none =>
      obtain ⟨_, _, hr⟩ := RegisterUser_of_toCreate_none L repo geoIP st r hto
      rcases hr with hr | hr
      · rw [hbad] at hr
        simp [httpError] at hr
      · rw [hr] at hbad
        have := httpError_inj _ _ 500 hbad
        revert this
        decide
    | some user =>
      have hip := hreach user hto
      obtain ⟨_, _, hr⟩ := RegisterUser_of_toCreate_some L repo geoIP st r user hto
      cases herr : (CreateUser repo geoIP st user).err with
      | none =>
        rw [herr] at hr
        rw [hr] at hbad
        simp [httpError] at hbad
      | some e =>
        rw [herr] at hr
        rw [hr] at hbad
        have he := httpError_inj _ _ 500 hbad
        subst he
        exact herrne user hip herr

/-- C13 at a concrete input: Alice's registration with a lookup that fails reaches
`CreateUser` with the IP "8.8.8.8" and answers 500 with the lookup's error. -/
theorem C13_empty_ip_branch_unreachable_witness :
    RegisterUser.toCreate toyLib aliceRegistration =
      some { alice with PasswordHash := "$2a$10$secret123" } ∧
    (RegisterUser toyLib mockRepo failingGeoIP [] aliceRegistration).response =
      httpError
        "failed to enrich user with country: IP API returned non-200 status: 500" 500 ∧
    (RegisterUser toyLib mockRepo failingGeoIP [] aliceRegistration).calls =
      [Call.GetCountryByIP "8.8.8.8"] ∧
    (RegisterUser toyLib mockRepo failingGeoIP [] aliceRegistration).response ≠
      httpError "user IP is required" 500 :=
  ⟨by decide, by decide, by decide,
    (C13_empty_ip_branch_unreachable toyLib mockRepo failingGeoIP [] aliceRegistration).2.2.2⟩

end IpDetector
